import Mathlib

/-!
# Verification of the agentic FB-analyst resilience core

Shallow embedding of the repository's pipeline controller
(`src/orchestrator/workflow.py`), planner normalization
(`src/agents/planner.py`), insight/evaluator/creative agents and data
loader, together with proofs settling the frozen claims C1-C10.

Python `dict`/`list`/JSON values are embedded as the inductive `Json`
below; Python numbers are embedded as rationals (`ℚ`); functions that can
raise in Python return `Except String _` with the error string standing
for the Python exception.  External effects (the LLM chat-completion
calls, pandas aggregation, report rendering) are modelled as oracle
inputs, exactly as the spec scopes them out (§1, §6): the theorems
quantify over every possible oracle outcome, including raised exceptions.
-/

deriving instance DecidableEq for Except

namespace FBAnalyst

/-- Embedding of Python/JSON values.  Objects are association lists in
insertion order (Python `dict` preserves insertion order); numbers are
rationals. -/
inductive Json where
  | null : Json
  | bool : Bool → Json
  | num : ℚ → Json
  | str : String → Json
  | arr : List Json → Json
  | obj : List (String × Json) → Json

namespace Json

mutual

/-- Boolean equality on embedded values. -/
def beq : Json → Json → Bool
  | null, null => true
  | bool a, bool b => a = b
  | num a, num b => a = b
  | str a, str b => a = b
  | arr xs, arr ys => beqL xs ys
  | obj xs, obj ys => beqKV xs ys
  | _, _ => false

/-- Boolean equality on value lists. -/
def beqL : List Json → List Json → Bool
  | [], [] => true
  | x :: xs, y :: ys => beq x y && beqL xs ys
  | _, _ => false

/-- Boolean equality on object field lists. -/
def beqKV : List (String × Json) → List (String × Json) → Bool
  | [], [] => true
  | (k, v) :: xs, (k', v') :: ys => k = k' && beq v v' && beqKV xs ys
  | _, _ => false

end

mutual

theorem eq_of_beq : ∀ {a b : Json}, beq a b = true → a = b
  | null, null, _ => rfl
  | bool _, bool _, h =>
      congrArg Json.bool (of_decide_eq_true (by simpa [beq] using h))
  | num _, num _, h =>
      congrArg Json.num (of_decide_eq_true (by simpa [beq] using h))
  | str _, str _, h =>
      congrArg Json.str (of_decide_eq_true (by simpa [beq] using h))
  | arr _, arr _, h => congrArg Json.arr (eq_of_beqL (by simpa [beq] using h))
  | obj _, obj _, h => congrArg Json.obj (eq_of_beqKV (by simpa [beq] using h))

theorem eq_of_beqL : ∀ {xs ys : List Json}, beqL xs ys = true → xs = ys
  | [], [], _ => rfl
  | x :: xs, y :: ys, h => by
      have h' := h
      simp only [beqL, Bool.and_eq_true] at h'
      rw [eq_of_beq h'.1, eq_of_beqL h'.2]

theorem eq_of_beqKV :
    ∀ {xs ys : List (String × Json)}, beqKV xs ys = true → xs = ys
  | [], [], _ => rfl
  | (k, v) :: xs, (k', v') :: ys, h => by
      have h' := h
      simp only [beqKV, Bool.and_eq_true, decide_eq_true_eq] at h'
      rw [h'.1.1, eq_of_beq h'.1.2, eq_of_beqKV h'.2]

end

mutual

theorem beq_refl : ∀ a : Json, beq a a = true
  | null => rfl
  | bool _ => by simp [beq]
  | num _ => by simp [beq]
  | str _ => by simp [beq]
  | arr xs => by simpa [beq] using beqL_refl xs
  | obj xs => by simpa [beq] using beqKV_refl xs

theorem beqL_refl : ∀ xs : List Json, beqL xs xs = true
  | [] => rfl
  | x :: xs => by simp [beqL, beq_refl x, beqL_refl xs]

theorem beqKV_refl : ∀ xs : List (String × Json), beqKV xs xs = true
  | [] => rfl
  | (k, v) :: xs => by simp [beqKV, beq_refl v, beqKV_refl xs]

end

instance : DecidableEq Json := fun a b =>
  decidable_of_iff (beq a b = true) ⟨eq_of_beq, fun h => h ▸ beq_refl a⟩

/-- `d[k]` lookup on an association list: first (and by construction only)
binding wins, like a Python dict. -/
def getKVs : List (String × Json) → String → Option Json
  | [], _ => none
  | (k', v') :: rest, k => if k' = k then some v' else getKVs rest k

/-- `d[k] = v` on an association list: replace in place if the key is
present (Python keeps the original insertion position), else append. -/
def setKVs : List (String × Json) → String → Json → List (String × Json)
  | [], k, v => [(k, v)]
  | (k', v') :: rest, k, v =>
      if k' = k then (k, v) :: rest else (k', v') :: setKVs rest k v

/-- `del d[k]` on an association list. -/
def delKVs : List (String × Json) → String → List (String × Json)
  | [], _ => []
  | (k', v') :: rest, k => if k' = k then rest else (k', v') :: delKVs rest k

/-- `j.get(k)` / `j[k]` lookup; `none` when `j` is not an object or the key
is absent. -/
def get? : Json → String → Option Json
  | obj kvs, k => getKVs kvs k
  | _, _ => none

/-- `k in j` membership test for objects. -/
def hasKey (j : Json) (k : String) : Bool := (j.get? k).isSome

/-- `j[k] = v` assignment; identity on non-objects (the call sites only
assign into values already known to be dicts). -/
def set : Json → String → Json → Json
  | obj kvs, k, v => obj (setKVs kvs k v)
  | j, _, _ => j

/-- `del j[k]`; identity on non-objects. -/
def del : Json → String → Json
  | obj kvs, k => obj (delKVs kvs k)
  | j, _ => j

/-- Python truthiness: `bool(x)`. -/
def truthy : Json → Bool
  | null => false
  | bool b => b
  | num q => q ≠ 0
  | str s => s ≠ ""
  | arr xs => !xs.isEmpty
  | obj kvs => !kvs.isEmpty

/-- Is the value a Python `dict`? (`isinstance(x, dict)`). -/
def isObj : Json → Bool
  | obj _ => true
  | _ => false

/-- Numeric view of a value used in Python arithmetic/comparisons: numbers
are themselves, Python `bool` is an `int` subtype (`True == 1`), anything
else raises `TypeError`. -/
def numVal? : Json → Except String ℚ
  | num q => .ok q
  | bool b => .ok (if b then 1 else 0)
  | _ => .error "TypeError: unsupported operand type"

end Json

/-! ## Configuration (§6)

`config` is loaded from YAML at startup; the workflow reads
`agents.reflection_enabled` (default `True`) and `agents.min_confidence`
(default `0.6`) with `.get(..., default)` semantics, and the creative
generator reads `thresholds`. -/

/-- The configuration record, with `none` standing for an absent key. -/
structure Config where
  reflection_enabled : Option Bool
  min_confidence : Option ℚ

/-- `self.config.get('agents', dict()).get('reflection_enabled', True)`
(workflow.py line 181). -/
def Config.reflectionEnabled (c : Config) : Bool :=
  c.reflection_enabled.getD true

/-- `self.config.get('agents', dict()).get('min_confidence', 0.6)`
(workflow.py line 196). -/
def Config.minConfidence (c : Config) : ℚ :=
  c.min_confidence.getD 0.6

/-- A configuration file that sets neither gate key, so both defaults
apply. -/
def defaultConfig : Config := ⟨none, none⟩

/-! ## Confidence gate (`AgenticWorkflow._needs_reflection`, workflow.py
lines 178-198) -/

/-- One term of `sum(h.get('confidence', 0) for h in hypotheses)`
(workflow.py lines 111 and 194): a non-dict element raises
`AttributeError`, a present but non-numeric confidence raises `TypeError`
when summed. -/
def confTerm : Json → Except String ℚ
  | h@(Json.obj _) => ((h.get? "confidence").getD (Json.num 0)).numVal?
  | _ => .error "AttributeError: object has no attribute get"

/-- `sum(h.get('confidence', 0) for h in hypotheses)`. -/
def sumConf : List Json → Except String ℚ
  | [] => .ok 0
  | h :: rest => do
      let a ← confTerm h
      let s ← sumConf rest
      .ok (a + s)

/-- `AgenticWorkflow._needs_reflection(insights)` (workflow.py 178-198):
no retry when reflection is disabled; retry when the hypothesis list is
falsy; otherwise compare the upstream `overall_confidence` — or, only when
that key is absent, the recomputed mean — against `min_confidence`.  A
present-but-non-list `hypotheses` value or non-numeric confidence data
raises, which the model signals as `.error`. -/
def needsReflection (cfg : Config) (insights : Json) : Except String Bool :=
  if !cfg.reflectionEnabled then .ok false
  else
    let hv := (insights.get? "hypotheses").getD (Json.arr [])
    if !hv.truthy then .ok true
    else do
      let avg ← match insights.get? "overall_confidence" with
        | some v => v.numVal?
        | none =>
          match hv with
          | Json.arr hyps => do
              let s ← sumConf hyps
              Except.ok (s / (hyps.length : ℚ))
          | _ => .error "TypeError: iteration over non-list"
      .ok (decide (avg < cfg.minConfidence))

/-- The `avg_confidence` value the gate compares against `min_confidence`
(workflow.py lines 190-194): the upstream `overall_confidence` when the
key is present, the recomputed mean only otherwise. -/
def gateAggregate (insights : Json) : Except String ℚ :=
  match insights.get? "overall_confidence" with
  | some v => v.numVal?
  | none =>
    match (insights.get? "hypotheses").getD (Json.arr []) with
    | Json.arr hyps => do
        let s ← sumConf hyps
        Except.ok (s / (hyps.length : ℚ))
    | _ => .error "TypeError: iteration over non-list"

/-- Modelled from the spec (§4.3, claim C1's wording): the arithmetic mean
of the per-hypothesis confidences of an evaluation's members, the value
the spec mandates for the retry decision. -/
def specMeanConfidence (hyps : List Json) : ℚ :=
  (hyps.map fun h =>
    match (h.get? "confidence").getD (Json.num 0) with
    | Json.num q => q
    | Json.bool b => if b then 1 else 0
    | _ => 0).sum / (hyps.length : ℚ)

/-! ## Evaluator (`EvaluatorAgent.evaluate`, evaluator.py lines 88-141) -/

/-- The deterministic result `evaluate` returns when anything in its `try`
block raises (evaluator.py lines 135-141): the input hypotheses unchanged
and a claimed `overall_confidence` of `0.5`. -/
def evaluatorFallback (hyps : List Json) : Json :=
  Json.obj
    [("hypotheses", Json.arr hyps),
     ("overall_confidence", Json.num 0.5),
     ("validation_summary", Json.str "Automated validation failed")]

/-- `h['confidence']` inside the mean recomputation (evaluator.py line
129): `KeyError` when absent, `TypeError`/`AttributeError` when the
element is not a dict or the value is not numeric. -/
def confIndex : Json → Except String ℚ
  | h@(Json.obj _) =>
      match h.get? "confidence" with
      | some v => v.numVal?
      | none => .error "KeyError: confidence"
  | _ => .error "TypeError: element is not a dict"

/-- `sum(h['confidence'] for h in validated.hypotheses)`. -/
def sumConfIndex : List Json → Except String ℚ
  | [] => .ok 0
  | h :: rest => do
      let a ← confIndex h
      let s ← sumConfIndex rest
      .ok (a + s)

/-- Lines 125-133 of evaluator.py on the parsed LLM reply: recompute
`overall_confidence` as the mean when the reply has a non-empty
`hypotheses` list; probing a non-dict reply (or summing malformed
members) raises, which lands in the fallback. -/
def evalSuccess (validated : Json) : Except String Json :=
  match validated with
  | Json.obj _ =>
    match validated.get? "hypotheses" with
    | some (Json.arr hyps) =>
        if hyps.length > 0 then do
          let s ← sumConfIndex hyps
          Except.ok
            (validated.set "overall_confidence" (Json.num (s / (hyps.length : ℚ))))
        else .ok validated
    | some (Json.str s) =>
        if s = "" then .ok validated else .error "TypeError: str element"
    | some (Json.obj kvs) =>
        if kvs.isEmpty then .ok validated else .error "TypeError: key element"
    | some _ => .error "TypeError: object has no len()"
    | none => .ok validated
  | _ => .error "TypeError: membership test on non-dict"

/-- `EvaluatorAgent.evaluate` (evaluator.py 88-141).  The LLM call plus
code-fence stripping is the oracle: `.error` = the chat-completion call
raised, `.ok none` = `json.loads` failed on the reply text, `.ok (some v)`
= the parsed reply.  Every exception inside the `try` block falls to the
deterministic fallback. -/
def evaluate (hyps : List Json) (llm : Except String (Option Json)) : Json :=
  match llm with
  | .error _ => evaluatorFallback hyps
  | .ok none => evaluatorFallback hyps
  | .ok (some validated) =>
    match evalSuccess validated with
    | .ok v => v
    | .error _ => evaluatorFallback hyps

/-! ## Claims C1 and C4: the confidence gate -/

/-- A hypothesis record carrying a given confidence. -/
def mkHyp (c : ℚ) : Json :=
  Json.obj [("id", Json.str "H1"), ("confidence", Json.num c)]

/-- The evaluator's error-fallback result for two members of confidence
`0.9` each: it claims `overall_confidence = 0.5` while the member mean is
`0.9`. -/
def c1Eval : Json := evaluatorFallback [mkHyp 0.9, mkHyp 0.9]

/-- Claim C1 as stated is false: at the confidence-gate boundary the
aggregate used for the retry decision is NOT always the recomputed mean of
the member confidences.  On the evaluator's error-fallback result for two
confidence-`0.9` hypotheses, the gate uses the upstream claimed value
`0.5` (not the mean `0.9`) and therefore signals a retry that the
recomputed mean (`0.9 ≥ 0.6`) would not signal. -/
theorem c1_counterexample :
    gateAggregate c1Eval = .ok 0.5 ∧
    specMeanConfidence [mkHyp 0.9, mkHyp 0.9] = 0.9 ∧
    (0.5 : ℚ) ≠ 0.9 ∧
    needsReflection defaultConfig c1Eval = .ok true ∧
    ¬ (specMeanConfidence [mkHyp 0.9, mkHyp 0.9] < defaultConfig.minConfidence) := by
  refine ⟨?_, ?_, ?_, ?_, ?_⟩ <;> with_unfolding_all decide

/-- Claim C1 as amended: the retry decision uses the evaluation's claimed
`overall_confidence` whenever that key is present — in particular the
evaluator's error fallback, which claims `0.5` regardless of the member
confidences — and recomputes the mean of per-hypothesis confidences only
when the key is absent. -/
theorem c1_amended :
    (∀ (cfg : Config) (hyps : List Json), cfg.reflectionEnabled = true →
      hyps ≠ [] →
      needsReflection cfg (evaluatorFallback hyps) =
        .ok (decide ((0.5 : ℚ) < cfg.minConfidence)))
    ∧ (∀ (cfg : Config) (kvs : List (String × Json)) (hyps : List Json) (s : ℚ),
      cfg.reflectionEnabled = true →
      Json.getKVs kvs "hypotheses" = some (Json.arr hyps) →
      Json.getKVs kvs "overall_confidence" = none →
      hyps ≠ [] →
      sumConf hyps = .ok s →
      needsReflection cfg (Json.obj kvs) =
        .ok (decide (s / (hyps.length : ℚ) < cfg.minConfidence))) := by
  constructor
  · intro cfg hyps he hne
    cases hyps with
    | nil => exact absurd rfl hne
    | cons h t =>
      simp [needsReflection, evaluatorFallback, Json.get?, Json.getKVs,
        Json.truthy, he, Json.numVal?, Except.bind, bind]
  · intro cfg kvs hyps s he hget hoc hne hsum
    cases hyps with
    | nil => exact absurd rfl hne
    | cons h t =>
      simp [needsReflection, Json.get?, hget, hoc, Option.getD_some,
        Json.truthy, he, hsum, Except.bind, bind]

/-- Witness for `c1_amended` at a concrete fallback input. -/
theorem c1_amended_witness :
    defaultConfig.reflectionEnabled = true ∧
    ([mkHyp 0.9, mkHyp 0.9] ≠ ([] : List Json)) ∧
    needsReflection defaultConfig (evaluatorFallback [mkHyp 0.9, mkHyp 0.9]) =
      .ok (decide ((0.5 : ℚ) < defaultConfig.minConfidence)) :=
  ⟨rfl, by decide,
    c1_amended.1 defaultConfig [mkHyp 0.9, mkHyp 0.9] rfl (by decide)⟩

/-- The hypothesis lists of spec Scenario D. -/
def scenarioD1hyps : List Json := [mkHyp 0.9, mkHyp 0.3]

/-- The hypothesis list of the retry half of spec Scenario D. -/
def scenarioD2hyps : List Json := [mkHyp 0.9, mkHyp 0.2]

/-- An evaluation whose members have confidences `0.9` and `0.3` (no
claimed `overall_confidence`, so the gate computes the mean `0.6`). -/
def scenarioD1 : Json := Json.obj [("hypotheses", Json.arr scenarioD1hyps)]

/-- An evaluation whose members have confidences `0.9` and `0.2` (mean
`0.55`). -/
def scenarioD2 : Json := Json.obj [("hypotheses", Json.arr scenarioD2hyps)]

/-- Claim C4: `needs_retry(evaluation, config)` returns true iff reflection
is enabled AND (the hypothesis sequence is empty OR the aggregate
confidence is strictly below the configured minimum); and for Scenario D,
confidences `[0.9, 0.3]` with `min_confidence 0.6` give mean `0.6`, not
strictly below `0.6`, so no retry, while `[0.9, 0.2]` (mean `0.55`)
triggers a retry. -/
theorem c4_gate :
    (∀ (cfg : Config) (kvs : List (String × Json)) (hyps : List Json) (a : ℚ),
      Json.getKVs kvs "hypotheses" = some (Json.arr hyps) →
      gateAggregate (Json.obj kvs) = .ok a →
      (needsReflection cfg (Json.obj kvs) = .ok true ↔
        cfg.reflectionEnabled = true ∧
          (hyps = [] ∨ a < cfg.minConfidence)))
    ∧ needsReflection defaultConfig scenarioD1 = .ok false
    ∧ needsReflection defaultConfig scenarioD2 = .ok true := by
  refine ⟨?_, ?_, ?_⟩
  · intro cfg kvs hyps a hget hagg
    unfold needsReflection gateAggregate at *
    simp only [Json.get?, hget, Option.getD_some] at *
    cases he : cfg.reflectionEnabled with
    | false => simp [he]
    | true =>
      simp only [he, Bool.not_true, Bool.false_eq_true, if_false, true_and]
      cases hyps with
      | nil => simp [Json.truthy]
      | cons h t =>
        simp only [Json.truthy, List.isEmpty_cons, Bool.not_false, if_true]
        cases h2 : Json.getKVs kvs "overall_confidence" with
        | some v =>
          simp only [h2] at hagg ⊢
          cases hv : v.numVal? with
          | error e => rw [hv] at hagg; exact absurd hagg (by simp)
          | ok q =>
            rw [hv] at hagg
            simp only [Except.ok.injEq] at hagg
            subst hagg
            simp [hv, Except.bind, bind, decide_eq_true_eq]
        | none =>
          simp only [h2] at hagg ⊢
          cases hs : sumConf (h :: t) with
          | error e => rw [hs] at hagg; exact absurd hagg (by simp [Except.bind, bind])
          | ok s =>
            rw [hs] at hagg
            simp only [Except.bind, bind, Except.ok.injEq] at hagg
            subst hagg
            simp [hs, Except.bind, bind, decide_eq_true_eq]
  · with_unfolding_all decide
  · with_unfolding_all decide

/-- Witness for `c4_gate` at the concrete Scenario-D retry input. -/
theorem c4_gate_witness :
    (needsReflection defaultConfig scenarioD2 = .ok true ↔
      defaultConfig.reflectionEnabled = true ∧
        (scenarioD2hyps = [] ∨ (0.55 : ℚ) < defaultConfig.minConfidence)) :=
  c4_gate.1 defaultConfig [("hypotheses", Json.arr scenarioD2hyps)]
    scenarioD2hyps 0.55 rfl (by with_unfolding_all decide)

/-! ## Planner (`PlannerAgent`, planner.py) -/

/-- Python `str.lower()` (character-wise, faithful for the ASCII keyword
matching the fallback plan performs). -/
def strLower (s : String) : String := String.mk (s.data.map Char.toLower)

/-- Auxiliary for substring search: does the list start with the
pattern? -/
def listStartsWith : List Char → List Char → Bool
  | _, [] => true
  | [], _ :: _ => false
  | c :: cs, d :: ds => c = d && listStartsWith cs ds

/-- Auxiliary for substring search over character lists. -/
def listContainsSub (pat : List Char) : List Char → Bool
  | [] => pat.isEmpty
  | s@(_ :: rest) => listStartsWith s pat || listContainsSub pat rest

/-- Python `pat in s` substring containment. -/
def strContains (s pat : String) : Bool := listContainsSub pat.data s.data

/-- The default `data_requirements` synthesized for a recovered string
task (planner.py lines 261 and 301). -/
def defaultReqs : Json :=
  Json.arr [Json.str "spend", Json.str "revenue", Json.str "roas"]

/-- The task object synthesized from a plain string task with 1-based id
counter `n` (planner.py lines 258-263 and 298-303). -/
def stringTask (n : ℕ) (s : String) : Json :=
  Json.obj
    [("task_id", Json.str ("T" ++ toString n)),
     ("description", Json.str s),
     ("data_requirements", defaultReqs),
     ("expected_output", Json.str "Analysis results")]

/-- `create_plan` lines 143-145: unwrap one redundant `plan` nesting
level when its value is a dict. -/
def unwrapPlan (p : Json) : Json :=
  match p.get? "plan" with
  | some (Json.obj kvs) => Json.obj kvs
  | _ => p

/-- Inner loop of the steps-flattening auto-fix (planner.py 252-265): from
one step object, append its `tasks` entries — strings become synthesized
task objects numbered by the running total, dicts pass through, anything
else is dropped.  (A non-dict step is skipped; in Python a string step
whose text happens to contain `tasks` would raise instead, a corner no
parsed LLM output in the claims reaches.) -/
def flattenStep (acc : List Json) (stepObj : Json) : List Json :=
  match stepObj with
  | Json.obj _ =>
    match stepObj.get? "tasks" with
    | some (Json.arr ts) =>
        ts.foldl (fun acc2 task =>
          match task with
          | Json.str s => acc2 ++ [stringTask (acc2.length + 1) s]
          | Json.obj kvs => acc2 ++ [Json.obj kvs]
          | _ => acc2) acc
    | _ => acc
  | _ => acc

/-- The `steps` auto-fix (planner.py 246-272).  Note the nesting of the
source: both the flatten branch and the direct `steps -> tasks` conversion
sit under `isinstance(plan["steps"][0], dict)`, so a `steps` list whose
first element is NOT a dict (e.g. plain strings) is left untouched. -/
def convertSteps (plan : Json) : Json :=
  match plan.get? "steps" with
  | some (Json.arr steps) =>
    match steps with
    | (Json.obj fkvs) :: _ =>
        if (Json.getKVs fkvs "tasks").isSome then
          ((plan.set "tasks" (Json.arr (steps.foldl flattenStep []))).del "steps")
        else
          ((plan.set "tasks" (Json.arr steps)).del "steps")
    | _ => plan
  | _ => plan

/-- The `actions -> tasks` auto-fix (planner.py 275-278). -/
def convertActions (plan : Json) : Json :=
  match plan.get? "actions" with
  | some av =>
      if plan.hasKey "tasks" then plan
      else ((plan.set "tasks" av).del "actions")
  | none => plan

/-- Per-task validation and auto-fix (planner.py 293-330), at 0-based
enumeration index `i`: a string becomes a full synthesized task, a dict
gets each missing required field backfilled, anything else is skipped
(`none`). -/
def fixTask (i : ℕ) (task : Json) : Option Json :=
  match task with
  | Json.str s => some (stringTask (i + 1) s)
  | Json.obj kvs =>
      let t1 := if (Json.obj kvs).hasKey "task_id" then Json.obj kvs
                else (Json.obj kvs).set "task_id" (Json.str ("T" ++ toString (i + 1)))
      let t2 := if t1.hasKey "description" then t1
                else t1.set "description"
                  ((t1.get? "action").getD
                    ((t1.get? "task").getD
                      ((t1.get? "step").getD (Json.str "Analysis task"))))
      let t3 := if t2.hasKey "data_requirements" then t2
                else t2.set "data_requirements" defaultReqs
      let t4 := if t3.hasKey "expected_output" then t3
                else t3.set "expected_output" (Json.str "Analysis results")
      some t4
  | _ => none

/-- Lines 280-352 of `_is_valid_plan`: require a non-empty `tasks` list,
fix each task, require a non-empty result, and backfill `query`, `intent`
and `success_criteria`; `some` carries the mutated plan the caller keeps
(Python mutates in place and returns `True`). -/
def validateTasks (plan : Json) : Option Json :=
  match plan.get? "tasks" with
  | some (Json.arr tasks) =>
      if tasks.isEmpty then none
      else
        let valid := tasks.enum.filterMap (fun p => fixTask p.1 p.2)
        if valid.isEmpty then none
        else
          let p1 := plan.set "tasks" (Json.arr valid)
          let p2 := if p1.hasKey "query" then p1
                    else p1.set "query" (Json.str "Analysis query")
          let p3 := if p2.hasKey "intent" then p2
                    else p2.set "intent" (Json.str "general_analysis")
          let p4 := if p3.hasKey "success_criteria" then p3
                    else p3.set "success_criteria" (Json.str "Complete analysis")
          some p4
  | some _ => none
  | none => none

/-- `_is_valid_plan` minus its own unwrapping step (planner.py 245-352). -/
def isValidPlanCore (plan : Json) : Option Json :=
  validateTasks (convertActions (convertSteps plan))

/-- `PlannerAgent._is_valid_plan` (planner.py 234-352) as a
validate-and-fix: `some p` means Python returns `True` having mutated the
caller's object to `p`; `none` means `False`.  When the argument still
carries a `plan` wrapper the local variable is rebound to the inner dict,
so the caller's object keeps the wrapper with the mutated inner dict
inside. -/
def isValidPlanFix (plan : Json) : Option Json :=
  match plan with
  | Json.obj kvs =>
    match Json.getKVs kvs "plan" with
    | some (Json.obj inner) =>
        (isValidPlanCore (Json.obj inner)).map
          (fun fixed => (Json.obj kvs).set "plan" fixed)
    | _ => isValidPlanCore (Json.obj kvs)
  | _ => none

/-- `PlannerAgent._fallback_plan` (planner.py 354-421): keyword-matched
deterministic plan. -/
def fallbackPlan (q : String) : Json :=
  let ql := strLower q
  let tasks : List Json :=
    if strContains ql "drop" || strContains ql "decline" ||
        strContains ql "decrease" then
      [Json.obj
        [("task_id", Json.str "T1"),
         ("description", Json.str "Analyze ROAS trend over time"),
         ("data_requirements", Json.arr
           [Json.str "date", Json.str "roas", Json.str "spend",
            Json.str "revenue"]),
         ("expected_output", Json.str "Time-based ROAS pattern showing decline")],
       Json.obj
        [("task_id", Json.str "T2"),
         ("description", Json.str "Identify underperforming campaigns"),
         ("data_requirements", Json.arr
           [Json.str "campaign_name", Json.str "roas", Json.str "ctr",
            Json.str "spend"]),
         ("expected_output", Json.str "List of campaigns with low ROAS")],
       Json.obj
        [("task_id", Json.str "T3"),
         ("description", Json.str "Analyze creative performance"),
         ("data_requirements", Json.arr
           [Json.str "creative_type", Json.str "creative_message",
            Json.str "ctr", Json.str "roas"]),
         ("expected_output", Json.str "Creative types and messages causing decline")]]
    else if strContains ql "improve" || strContains ql "increase" ||
        strContains ql "optimize" then
      [Json.obj
        [("task_id", Json.str "T1"),
         ("description", Json.str "Find top performing campaigns"),
         ("data_requirements", Json.arr
           [Json.str "campaign_name", Json.str "roas", Json.str "ctr",
            Json.str "spend"]),
         ("expected_output", Json.str "Best performing campaigns to scale")],
       Json.obj
        [("task_id", Json.str "T2"),
         ("description", Json.str "Identify winning creative patterns"),
         ("data_requirements", Json.arr
           [Json.str "creative_type", Json.str "creative_message",
            Json.str "ctr"]),
         ("expected_output", Json.str "Creative elements that drive performance")]]
    else
      [Json.obj
        [("task_id", Json.str "T1"),
         ("description", Json.str "Overall performance analysis"),
         ("data_requirements", Json.arr
           [Json.str "spend", Json.str "revenue", Json.str "roas",
            Json.str "ctr"]),
         ("expected_output", Json.str "Summary of key metrics")],
       Json.obj
        [("task_id", Json.str "T2"),
         ("description", Json.str "Campaign comparison"),
         ("data_requirements", Json.arr
           [Json.str "campaign_name", Json.str "roas", Json.str "spend"]),
         ("expected_output", Json.str "Campaign performance breakdown")]]
  let intent :=
    if strContains ql "drop" || strContains ql "decline" ||
        strContains ql "decrease" then "diagnose_drop"
    else if strContains ql "improve" || strContains ql "increase" ||
        strContains ql "optimize" then "optimize_performance"
    else "general_analysis"
  Json.obj
    [("query", Json.str q),
     ("intent", Json.str intent),
     ("tasks", Json.arr tasks),
     ("success_criteria", Json.str ("Provide actionable insights for: " ++ q))]

/-- The post-parse normalization path of `create_plan` (planner.py
139-157): unwrap a redundant `plan` layer, validate-and-fix, and fall back
to the keyword plan when validation rejects. -/
def normalizePlan (q : String) (parsed : Json) : Json :=
  match isValidPlanFix (unwrapPlan parsed) with
  | some fixed => fixed
  | none => fallbackPlan q

/-- `PlannerAgent.create_plan` (planner.py 99-161).  The oracle stands for
the LLM call, fence stripping, `json.loads` and `_aggressive_repair`:
`.error` = something in the `try` block raised, `.ok parsed` = the object
the parse/repair pipeline produced (total repair failure yields the empty
object, which validation rejects). -/
def createPlan (q : String) (llm : Except String Json) : Json :=
  match llm with
  | .error _ => fallbackPlan q
  | .ok parsed => normalizePlan q parsed

/-! ## Association-list lemmas shared by the planner/workflow proofs -/

theorem getKVs_set_self (kvs : List (String × Json)) (k : String) (v : Json) :
    Json.getKVs (Json.setKVs kvs k v) k = some v := by
  induction kvs with
  | nil => simp [Json.setKVs, Json.getKVs]
  | cons kv rest ih =>
    by_cases h : kv.1 = k
    · simp [Json.setKVs, Json.getKVs, h]
    · simp [Json.setKVs, Json.getKVs, h, ih]

theorem getKVs_set_ne (kvs : List (String × Json)) (k : String) (v : Json)
    (k' : String) (h : k ≠ k') :
    Json.getKVs (Json.setKVs kvs k v) k' = Json.getKVs kvs k' := by
  induction kvs with
  | nil => simp [Json.setKVs, Json.getKVs, h]
  | cons kv rest ih =>
    by_cases h2 : kv.1 = k
    · simp [Json.setKVs, Json.getKVs, h2, h]
    · simp [Json.setKVs, Json.getKVs, h2, ih]

theorem setKVs_id (kvs : List (String × Json)) (k : String) (v : Json)
    (h : Json.getKVs kvs k = some v) : Json.setKVs kvs k v = kvs := by
  induction kvs with
  | nil => simp [Json.getKVs] at h
  | cons kv rest ih =>
    by_cases h2 : kv.1 = k
    · simp [Json.getKVs, h2] at h
      subst h2
      simp [Json.setKVs, ← h]
    · simp [Json.getKVs, h2] at h
      simp [Json.setKVs, h2, ih h]

/-! ## Claims C2 and C9: plan normalization -/

/-- Projection used to state the plan-shape claims: the `field` value of
the `i`-th (0-based) task of a plan. -/
def nthTaskField (p : Json) (i : ℕ) (field : String) : Option Json :=
  match p.get? "tasks" with
  | some (Json.arr ts) =>
    match ts.get? i with
    | some t => t.get? field
    | none => none
  | _ => none

/-- A keyword-free query (none of drop/decline/decrease,
improve/increase/optimize). -/
def c2Query : String := "how are my ads performing"

/-- Scenario-B raw plan: a `steps` key holding 2 plain strings. -/
def c2Parsed : Json :=
  Json.obj [("steps", Json.arr
    [Json.str "Analyze spend trends", Json.str "Compare campaign performance"])]

/-- Claim C2 as stated is false: a parsed plan whose `steps` key holds 2
plain strings is NOT converted into 2 synthesized tasks with default
`data_requirements = [spend, revenue, roas]` — the steps→tasks auto-fix
only fires when the first step is a dict, so validation rejects the plan
and normalization returns the keyword fallback plan, whose tasks carry the
fallback's own `data_requirements`. -/
theorem c2_counterexample :
    normalizePlan c2Query c2Parsed = fallbackPlan c2Query ∧
    nthTaskField (normalizePlan c2Query c2Parsed) 0 "data_requirements" =
      some (Json.arr [Json.str "spend", Json.str "revenue", Json.str "roas",
        Json.str "ctr"]) ∧
    (Json.arr [Json.str "spend", Json.str "revenue", Json.str "roas",
        Json.str "ctr"]) ≠ defaultReqs ∧
    nthTaskField (normalizePlan c2Query c2Parsed) 1 "data_requirements" =
      some (Json.arr [Json.str "campaign_name", Json.str "roas",
        Json.str "spend"]) := by
  refine ⟨?_, ?_, ?_, ?_⟩ <;> decide

/-- Claim C2 as amended: a raw plan whose `steps` key holds 2 plain
strings is rejected by validation (the conversion requires the first step
to be a dict) and normalization returns the keyword fallback plan; for a
query without trend keywords that plan has 2 tasks with `task_id`s `T1`
and `T2` but the fallback's own fixed `data_requirements`
(`[spend, revenue, roas, ctr]` and `[campaign_name, roas, spend]`), not
the `[spend, revenue, roas]` default of synthesized string tasks. -/
theorem c2_amended :
    (∀ (s1 s2 q : String),
      normalizePlan q
        (Json.obj [("steps", Json.arr [Json.str s1, Json.str s2])]) =
        fallbackPlan q)
    ∧ (∀ q : String,
      strContains (strLower q) "drop" = false →
      strContains (strLower q) "decline" = false →
      strContains (strLower q) "decrease" = false →
      strContains (strLower q) "improve" = false →
      strContains (strLower q) "increase" = false →
      strContains (strLower q) "optimize" = false →
      nthTaskField (fallbackPlan q) 0 "task_id" = some (Json.str "T1") ∧
      nthTaskField (fallbackPlan q) 1 "task_id" = some (Json.str "T2") ∧
      nthTaskField (fallbackPlan q) 0 "data_requirements" =
        some (Json.arr [Json.str "spend", Json.str "revenue", Json.str "roas",
          Json.str "ctr"]) ∧
      nthTaskField (fallbackPlan q) 1 "data_requirements" =
        some (Json.arr [Json.str "campaign_name", Json.str "roas",
          Json.str "spend"])) := by
  constructor
  · intro s1 s2 q
    rfl
  · intro q h1 h2 h3 h4 h5 h6
    refine ⟨?_, ?_, ?_, ?_⟩ <;>
      simp [fallbackPlan, nthTaskField, h1, h2, h3, h4, h5, h6, Json.get?,
        Json.getKVs]

/-- Witness for `c2_amended` at the concrete keyword-free query. -/
theorem c2_amended_witness :
    nthTaskField (fallbackPlan c2Query) 0 "task_id" = some (Json.str "T1") ∧
    nthTaskField (fallbackPlan c2Query) 1 "task_id" = some (Json.str "T2") ∧
    nthTaskField (fallbackPlan c2Query) 0 "data_requirements" =
      some (Json.arr [Json.str "spend", Json.str "revenue", Json.str "roas",
        Json.str "ctr"]) ∧
    nthTaskField (fallbackPlan c2Query) 1 "data_requirements" =
      some (Json.arr [Json.str "campaign_name", Json.str "roas",
        Json.str "spend"]) :=
  c2_amended.2 c2Query (by decide) (by decide) (by decide) (by decide)
    (by decide) (by decide)

/-- Does a task object carry all four required fields already? -/
def fullTask (t : Json) : Bool :=
  t.isObj && t.hasKey "task_id" && t.hasKey "description" &&
  t.hasKey "data_requirements" && t.hasKey "expected_output"

theorem fixTask_full (t : Json) (h : fullTask t = true) (i : ℕ) :
    fixTask i t = some t := by
  cases t with
  | obj kvs =>
    simp only [fullTask, Json.isObj, Bool.and_eq_true] at h
    simp [fixTask, h.1.1.1.2, h.1.1.2, h.1.2, h.2]
  | null => simp [fullTask, Json.isObj] at h
  | bool b => simp [fullTask, Json.isObj] at h
  | num q => simp [fullTask, Json.isObj] at h
  | str s => simp [fullTask, Json.isObj] at h
  | arr xs => simp [fullTask, Json.isObj] at h

/-- Claim C9: a raw plan wrapped in an extra `plan` layer whose inner
object has a valid 2-element `tasks` array normalizes to the unwrapped
inner plan — the result carries exactly those 2 tasks and no `plan`
wrapper key. -/
theorem c9_unwrap :
    ∀ (q : String) (kvs : List (String × Json)) (t1 t2 : Json),
      Json.getKVs kvs "plan" = none →
      Json.getKVs kvs "steps" = none →
      Json.getKVs kvs "tasks" = some (Json.arr [t1, t2]) →
      fullTask t1 = true → fullTask t2 = true →
      (normalizePlan q (Json.obj [("plan", Json.obj kvs)])).get? "tasks" =
        some (Json.arr [t1, t2]) ∧
      (normalizePlan q (Json.obj [("plan", Json.obj kvs)])).hasKey "plan" =
        false := by
  intro q kvs t1 t2 hplan hsteps htasks ht1 ht2
  have hunwrap : unwrapPlan (Json.obj [("plan", Json.obj kvs)]) = Json.obj kvs := by
    simp [unwrapPlan, Json.get?, Json.getKVs]
  have hsteps' : convertSteps (Json.obj kvs) = Json.obj kvs := by
    simp [convertSteps, Json.get?, hsteps]
  have hactions : convertActions (Json.obj kvs) = Json.obj kvs := by
    unfold convertActions
    cases ha : Json.getKVs kvs "actions" with
    | none => simp [Json.get?, ha]
    | some av => simp [Json.get?, ha, Json.hasKey, htasks]
  have hval : ([t1, t2].enum.filterMap (fun p => fixTask p.1 p.2)) = [t1, t2] := by
    simp [List.enum, List.enumFrom, List.filterMap_cons,
      fixTask_full t1 ht1, fixTask_full t2 ht2]
  have hcore : ∃ kvs', validateTasks (Json.obj kvs) = some (Json.obj kvs') ∧
      Json.getKVs kvs' "tasks" = some (Json.arr [t1, t2]) ∧
      Json.getKVs kvs' "plan" = none := by
    unfold validateTasks
    simp only [Json.get?, htasks, hval]
    rw [if_neg (by simp)]
    rw [if_neg (by simp)]
    simp only [Json.set, setKVs_id kvs "tasks" (Json.arr [t1, t2]) htasks]
    split <;> split <;> split <;>
      (refine ⟨_, rfl, ?_, ?_⟩ <;>
         simp [getKVs_set_ne, htasks, hplan])
  have hfix : isValidPlanFix (Json.obj kvs) = validateTasks (Json.obj kvs) := by
    simp [isValidPlanFix, hplan, isValidPlanCore, hsteps', hactions]
  obtain ⟨kvs', hv, hts, hpl⟩ := hcore
  have hnorm : normalizePlan q (Json.obj [("plan", Json.obj kvs)]) =
      Json.obj kvs' := by
    unfold normalizePlan
    rw [hunwrap, hfix, hv]
  rw [hnorm]
  exact ⟨hts, by simp [Json.hasKey, Json.get?, hpl]⟩

/-- A concrete complete task for the C9 witness. -/
def c9Task1 : Json :=
  Json.obj
    [("task_id", Json.str "T1"),
     ("description", Json.str "Analyze ROAS time trend"),
     ("data_requirements", Json.arr [Json.str "date", Json.str "roas"]),
     ("expected_output", Json.str "Week over week ROAS change")]

/-- A second concrete complete task for the C9 witness. -/
def c9Task2 : Json :=
  Json.obj
    [("task_id", Json.str "T2"),
     ("description", Json.str "Compare campaign performance"),
     ("data_requirements", Json.arr [Json.str "campaign_name", Json.str "roas"]),
     ("expected_output", Json.str "Top and bottom performers")]

/-- The inner plan object of the C9 witness. -/
def c9Inner : List (String × Json) :=
  [("query", Json.str "Why did ROAS drop?"),
   ("intent", Json.str "diagnose_drop"),
   ("tasks", Json.arr [c9Task1, c9Task2]),
   ("success_criteria", Json.str "Identify root cause")]

/-- Witness for `c9_unwrap` at a concrete wrapped plan. -/
theorem c9_unwrap_witness :
    (normalizePlan "Why did ROAS drop?"
        (Json.obj [("plan", Json.obj c9Inner)])).get? "tasks" =
      some (Json.arr [c9Task1, c9Task2]) ∧
    (normalizePlan "Why did ROAS drop?"
        (Json.obj [("plan", Json.obj c9Inner)])).hasKey "plan" = false :=
  c9_unwrap "Why did ROAS drop?" c9Inner c9Task1 c9Task2 (by decide)
    (by decide) (by decide) (by decide) (by decide)

/-! ## Insight agent (`InsightAgent`, insight_agent.py) -/

/-- The single hypothesis of the insight fallback (insight_agent.py
204-213). -/
def fallbackHyp : Json :=
  Json.obj
    [("id", Json.str "H1"),
     ("hypothesis", Json.str "Performance metrics require detailed analysis"),
     ("confidence", Json.num 0.3),
     ("evidence", Json.arr [Json.str "Automated analysis unavailable"]),
     ("recommendation", Json.str "Manual review recommended"),
     ("category", Json.str "technical")]

/-- `InsightAgent._fallback_insights` (insight_agent.py 199-215), with the
wall-clock timestamp as a parameter. -/
def fallbackInsights (ts q : String) : Json :=
  Json.obj
    [("timestamp", Json.str ts),
     ("query", Json.str q),
     ("hypotheses", Json.arr [fallbackHyp]),
     ("reasoning", Json.str "Fallback triggered due to API error")]

/-- `InsightAgent.generate_insights` (insight_agent.py 76-117).  Oracle:
`.error` = the chat-completion call raised; `.ok none` = `_extract_json`
could not parse the reply text (the code then raises `ValueError`);
`.ok (some ins)` = the parsed reply.  A falsy parsed value raises, and a
truthy non-dict reply raises when fields are enforced or the hypothesis
count is taken — every raise inside the `try` lands in the fallback. -/
def generateInsights (ts q : String) (llm : Except String (Option Json)) : Json :=
  match llm with
  | .error _ => fallbackInsights ts q
  | .ok none => fallbackInsights ts q
  | .ok (some ins) =>
    if !ins.truthy then fallbackInsights ts q
    else match ins with
      | Json.obj _ =>
        let i1 := if ins.hasKey "timestamp" then ins
                  else ins.set "timestamp" (Json.str ts)
        let i2 := if i1.hasKey "query" then i1 else i1.set "query" (Json.str q)
        let i3 := if i2.hasKey "hypotheses" then i2
                  else i2.set "hypotheses" (Json.arr [])
        match i3.get? "hypotheses" with
        | some (Json.arr _) => i3
        | some (Json.str _) => i3
        | some (Json.obj _) => i3
        | _ => fallbackInsights ts q
      | _ => fallbackInsights ts q

/-! ## Creative generator (`CreativeGenerator`, creative_generator.py) -/

/-- One row of `_identify_low_ctr_campaigns`' grouped output
(creative_generator.py 225-239): the pandas aggregation itself is
out-of-scope tabular work (§1), but its record shape — exactly these six
columns — is fixed by the `groupby/agg` call. -/
structure Campaign where
  campaign_name : String
  ctr : ℚ
  spend : ℚ
  roas : ℚ
  creative_message : String
  creative_type : String

/-- One fallback recommendation (creative_generator.py 274-290). -/
def creativeRec (c : Campaign) : Json :=
  Json.obj
    [("campaign_name", Json.str c.campaign_name),
     ("current_ctr", Json.num c.ctr),
     ("current_message", Json.str c.creative_message),
     ("issue", Json.str "Low CTR"),
     ("new_creatives", Json.arr
       [Json.obj
         [("headline", Json.str "Discover Something Better"),
          ("message", Json.str "Try our new improved offer with better value!"),
          ("cta", Json.str "Learn More"),
          ("creative_type", Json.str "Image"),
          ("rationale", Json.str "Simple fallback rationale"),
          ("inspiration", Json.str "General improvement")]])]

/-- `CreativeGenerator._fallback` (creative_generator.py 271-296). -/
def creativeFallback (ts : String) (camps : List Campaign) : Json :=
  Json.obj
    [("timestamp", Json.str ts),
     ("recommendations", Json.arr ((camps.take 3).map creativeRec)),
     ("note", Json.str "Fallback recommendations used")]

/-- `CreativeGenerator.generate` (creative_generator.py 91-150).  `camps`
is the low-CTR campaign list; the oracle is the LLM call (`.ok none` =
malformed JSON reply, handled at line 137).  A non-dict parsed reply
raises at `setdefault` and lands in the fallback, as does a
`recommendations` value without `len()`. -/
def generateCreatives (ts : String) (camps : List Campaign)
    (llm : Except String (Option Json)) : Json :=
  if camps.isEmpty then
    Json.obj
      [("timestamp", Json.str ts),
       ("recommendations", Json.arr []),
       ("note", Json.str "No low-CTR campaigns found")]
  else
    match llm with
    | .error _ => creativeFallback ts camps
    | .ok none => creativeFallback ts camps
    | .ok (some dataObj) =>
      match dataObj with
      | Json.obj _ =>
        let d1 := if dataObj.hasKey "recommendations" then dataObj
                  else dataObj.set "recommendations" (Json.arr [])
        let d2 := if d1.hasKey "timestamp" then d1
                  else d1.set "timestamp" (Json.str ts)
        match d2.get? "recommendations" with
        | some (Json.arr _) => d2
        | some (Json.str _) => d2
        | some (Json.obj _) => d2
        | _ => creativeFallback ts camps
      | _ => creativeFallback ts camps

/-! ## Stage contracts, modelled from the spec (§3) -/

/-- Is the looked-up value a string? -/
def isStrVal : Option Json → Bool
  | some (Json.str _) => true
  | _ => false

/-- Is the looked-up value a number? -/
def isNumVal : Option Json → Bool
  | some (Json.num _) => true
  | _ => false

/-- Is the looked-up value an array of strings? -/
def isStrArr : Option Json → Bool
  | some (Json.arr xs) =>
      xs.all fun x => match x with | Json.str _ => true | _ => false
  | _ => false

/-- Modelled from the spec (§3 Plan/Task): each Task carries a string
`task_id` and `description`, string `data_requirements` and a string
`expected_output`. -/
def specTaskContract (t : Json) : Bool :=
  isStrVal (t.get? "task_id") && isStrVal (t.get? "description") &&
  isStrArr (t.get? "data_requirements") && isStrVal (t.get? "expected_output")

/-- Modelled from the spec (§3 Plan): string `query`, `intent` and
`success_criteria`, a non-empty `tasks` sequence of schema-valid tasks with
unique `task_id`s. -/
def specPlanContract (p : Json) : Prop :=
  isStrVal (p.get? "query") = true ∧ isStrVal (p.get? "intent") = true ∧
  isStrVal (p.get? "success_criteria") = true ∧
  ∃ tasks, p.get? "tasks" = some (Json.arr tasks) ∧ tasks ≠ [] ∧
    tasks.all specTaskContract = true ∧
    (tasks.map fun t => t.get? "task_id").Nodup

/-- Modelled from the spec (§3 Hypothesis): string `id`, `hypothesis`,
`recommendation` and `category`, a confidence in `[0,1]` and string
evidence. -/
def specHypothesisContract (h : Json) : Bool :=
  isStrVal (h.get? "id") && isStrVal (h.get? "hypothesis") &&
  (match h.get? "confidence" with
   | some (Json.num q) => decide (0 ≤ q) && decide (q ≤ 1)
   | _ => false) &&
  isStrArr (h.get? "evidence") && isStrVal (h.get? "recommendation") &&
  isStrVal (h.get? "category")

/-- Modelled from the spec (§3 Hypothesis-Set): `timestamp`, `query`,
`reasoning` strings and a sequence of schema-valid hypotheses. -/
def specInsightsContract (s : Json) : Bool :=
  isStrVal (s.get? "timestamp") && isStrVal (s.get? "query") &&
  (match s.get? "hypotheses" with
   | some (Json.arr hs) => hs.all specHypothesisContract
   | _ => false) &&
  isStrVal (s.get? "reasoning")

/-- The SET-LEVEL structural shape of an Evaluation — a `hypotheses`
sequence, a numeric `overall_confidence` and a `validation_summary`
string.  This is deliberately only the outer shape the orchestrator's
consumers rely on; it is strictly weaker than the spec's full §3
Evaluation contract (`specEvaluationFull` below), which additionally
refines every member and pins `overall_confidence` to the member mean.  A
value failing this weak shape a fortiori fails the full contract. -/
def specEvaluationContract (e : Json) : Bool :=
  (match e.get? "hypotheses" with
   | some (Json.arr _) => true
   | _ => false) &&
  isNumVal (e.get? "overall_confidence") &&
  isStrVal (e.get? "validation_summary")

/-- Modelled from the spec (§3 Evaluation): the `validation` record each
refined Hypothesis gains — `supports`, `contradicts` and `data_gaps`
string sequences. -/
def specValidationRecord : Option Json → Bool
  | some r =>
      isStrArr (r.get? "supports") && isStrArr (r.get? "contradicts") &&
      isStrArr (r.get? "data_gaps")
  | none => false

/-- Modelled from the spec (§3 Evaluation): a member of an Evaluation is
a schema-valid Hypothesis that has gained a numeric `original_confidence`
and a `validation` record. -/
def specEvaluationMember (h : Json) : Bool :=
  specHypothesisContract h && isNumVal (h.get? "original_confidence") &&
  specValidationRecord (h.get? "validation")

/-- Modelled from the spec (§3 Evaluation, in full): every member carries
the refinement fields, and the set's `overall_confidence` equals the
arithmetic mean of the member confidences. -/
def specEvaluationFull (e : Json) : Bool :=
  (match e.get? "hypotheses" with
   | some (Json.arr hs) =>
       hs.all specEvaluationMember &&
       (match e.get? "overall_confidence" with
        | some (Json.num q) => decide (q = specMeanConfidence hs)
        | _ => false)
   | _ => false) &&
  isStrVal (e.get? "validation_summary")

/-- Modelled from the spec (§3 Creative Recommendation Set): a
`timestamp` and a sequence of recommendations, each with campaign fields
(`campaign_name`, `current_ctr`, `current_message`, `issue`) and
fully-populated new creatives. -/
def specCreativeItemContract (r : Json) : Bool :=
  isStrVal (r.get? "campaign_name") && isNumVal (r.get? "current_ctr") &&
  isStrVal (r.get? "current_message") && isStrVal (r.get? "issue") &&
  (match r.get? "new_creatives" with
   | some (Json.arr cs) => cs.all fun c =>
       isStrVal (c.get? "headline") && isStrVal (c.get? "message") &&
       isStrVal (c.get? "cta") && isStrVal (c.get? "creative_type") &&
       isStrVal (c.get? "rationale") && isStrVal (c.get? "inspiration")
   | _ => false)

/-- Modelled from the spec (§3): the Creative-Set contract. -/
def specCreativeContract (s : Json) : Bool :=
  isStrVal (s.get? "timestamp") &&
  (match s.get? "recommendations" with
   | some (Json.arr rs) => rs.all specCreativeItemContract
   | _ => false)

/-! ## Claim C7: deterministic fallbacks and the stage contracts -/

theorem fallbackPlan_contract (q : String) : specPlanContract (fallbackPlan q) := by
  unfold fallbackPlan
  cases h1 : (strContains (strLower q) "drop" || strContains (strLower q) "decline" ||
      strContains (strLower q) "decrease") with
  | true =>
    simp only [h1, if_true]
    refine ⟨rfl, rfl, rfl, _, rfl, by decide, by decide, by decide⟩
  | false =>
    cases h2 : (strContains (strLower q) "improve" || strContains (strLower q) "increase" ||
        strContains (strLower q) "optimize") with
    | true =>
      simp only [h1, h2, if_true, if_false, Bool.false_eq_true]
      refine ⟨rfl, rfl, rfl, _, rfl, by decide, by decide, by decide⟩
    | false =>
      simp only [h1, h2, if_false, Bool.false_eq_true]
      refine ⟨rfl, rfl, rfl, _, rfl, by decide, by decide, by decide⟩

theorem creativeRec_contract (c : Campaign) :
    specCreativeItemContract (creativeRec c) = true := rfl

/-- A hypothesis carrying every §3 Hypothesis field, as the hypothesize
stage produces them — like every hypothesis the evaluator receives as
input, it has no `original_confidence` or `validation` refinement fields
yet. -/
def preEvalHyp : Json :=
  Json.obj
    [("id", Json.str "H1"),
     ("hypothesis", Json.str "Video creatives outperform image creatives"),
     ("confidence", Json.num 0.9),
     ("evidence", Json.arr [Json.str "Video CTR 0.021 vs image CTR 0.01"]),
     ("recommendation", Json.str "Shift budget to video"),
     ("category", Json.str "creative_fatigue")]

/-- Claim C7 as stated is false for the evaluation adapter: when the
external call raises, the evaluator's deterministic fallback
(evaluator.py 135-141) returns the input hypotheses unchanged — without
the `original_confidence` and `validation` refinement fields §3's
Evaluation contract requires — and claims a fixed `overall_confidence` of
`0.5` instead of the member mean (`0.9` here), so it does not validate
against the stage's contract. -/
theorem c7_counterexample :
    evaluate [preEvalHyp, preEvalHyp] (.error "APIConnectionError") =
      evaluatorFallback [preEvalHyp, preEvalHyp] ∧
    specHypothesisContract preEvalHyp = true ∧
    specEvaluationFull (evaluatorFallback [preEvalHyp, preEvalHyp]) = false ∧
    preEvalHyp.hasKey "original_confidence" = false ∧
    (evaluatorFallback [preEvalHyp, preEvalHyp]).get? "overall_confidence" =
      some (Json.num 0.5) ∧
    specMeanConfidence [preEvalHyp, preEvalHyp] = 0.9 ∧
    (0.5 : ℚ) ≠ (0.9 : ℚ) := by
  refine ⟨?_, ?_, ?_, ?_, ?_, ?_, ?_⟩ <;> with_unfolding_all decide

/-- Claim C7 as amended: when the external generation call raises, every
stage adapter returns its deterministic fallback.  The plan, hypothesize
and creative fallbacks validate against their stage's spec contract, and
the hypothesize fallback — also reached on a truncated or unparseable
reply — is exactly one hypothesis with confidence `0.3` and category
`technical`.  The evaluator's fallback is deterministic and carries the
set-level Evaluation shape (a hypotheses list, a numeric
`overall_confidence`, a summary string), but it does NOT validate against
the spec's full Evaluation contract: whenever any input hypothesis lacks
the `original_confidence` refinement field — as all hypothesize-stage
output does — the fallback fails that contract. -/
theorem c7_amended :
    (∀ (q e : String), createPlan q (.error e) = fallbackPlan q ∧
       specPlanContract (fallbackPlan q))
    ∧ (∀ (ts q e : String),
        generateInsights ts q (.error e) = fallbackInsights ts q ∧
        generateInsights ts q (.ok none) = fallbackInsights ts q ∧
        specInsightsContract (fallbackInsights ts q) = true ∧
        (fallbackInsights ts q).get? "hypotheses" = some (Json.arr [fallbackHyp]) ∧
        fallbackHyp.get? "confidence" = some (Json.num 0.3) ∧
        fallbackHyp.get? "category" = some (Json.str "technical"))
    ∧ (∀ (hyps : List Json) (e : String),
        evaluate hyps (.error e) = evaluatorFallback hyps ∧
        specEvaluationContract (evaluatorFallback hyps) = true ∧
        (∀ h', h' ∈ hyps → h'.hasKey "original_confidence" = false →
          specEvaluationFull (evaluatorFallback hyps) = false))
    ∧ (∀ (ts : String) (camps : List Campaign) (e : String), camps ≠ [] →
        generateCreatives ts camps (.error e) = creativeFallback ts camps ∧
        specCreativeContract (creativeFallback ts camps) = true) := by
  refine ⟨?_, ?_, ?_, ?_⟩
  · intro q e
    exact ⟨rfl, fallbackPlan_contract q⟩
  · intro ts q e
    exact ⟨rfl, rfl, by with_unfolding_all rfl, rfl, rfl, rfl⟩
  · intro hyps e
    refine ⟨rfl, rfl, ?_⟩
    intro h' hmem hkey
    have hnone : h'.get? "original_confidence" = none := by
      cases hh : h'.get? "original_confidence" with
      | none => rfl
      | some v => simp [Json.hasKey, hh] at hkey
    have hmf : specEvaluationMember h' = false := by
      unfold specEvaluationMember
      simp [hnone, isNumVal]
    have hall : hyps.all specEvaluationMember = false := by
      cases hcon : hyps.all specEvaluationMember with
      | false => rfl
      | true =>
        have := (List.all_eq_true.mp hcon) h' hmem
        rw [hmf] at this
        cases this
    have hget : (evaluatorFallback hyps).get? "hypotheses" =
        some (Json.arr hyps) := rfl
    unfold specEvaluationFull
    rw [hget]
    dsimp only
    simp [hall]
  · intro ts camps e hne
    constructor
    · cases camps with
      | nil => exact absurd rfl hne
      | cons c rest => rfl
    · have ht : (creativeFallback ts camps).get? "timestamp" =
          some (Json.str ts) := rfl
      have hrec : (creativeFallback ts camps).get? "recommendations" =
          some (Json.arr ((camps.take 3).map creativeRec)) := rfl
      unfold specCreativeContract
      rw [ht, hrec]
      simp only [isStrVal, Bool.true_and, List.all_eq_true]
      intro x hx
      obtain ⟨c, hc, rfl⟩ := List.mem_map.1 hx
      exact creativeRec_contract c

/-- A concrete low-CTR campaign row for the C7 witness. -/
def sampleCampaign : Campaign :=
  ⟨"Campaign_A", 0.01, 500, 2.0, "Message A", "Image"⟩

/-- Witness for `c7_amended` at a concrete non-empty campaign list and a
concrete refinement-free hypothesis. -/
theorem c7_amended_witness :
    (([sampleCampaign] : List Campaign) ≠ [] ∧
      generateCreatives "t0" [sampleCampaign] (.error "boom") =
        creativeFallback "t0" [sampleCampaign] ∧
      specCreativeContract (creativeFallback "t0" [sampleCampaign]) = true) ∧
    (preEvalHyp ∈ [preEvalHyp] ∧
      preEvalHyp.hasKey "original_confidence" = false ∧
      specEvaluationFull (evaluatorFallback [preEvalHyp]) = false) :=
  ⟨⟨by simp, (c7_amended.2.2.2 "t0" [sampleCampaign] "boom" (by simp)).1,
    (c7_amended.2.2.2 "t0" [sampleCampaign] "boom" (by simp)).2⟩,
   ⟨by simp, by decide,
    (c7_amended.2.2.1 [preEvalHyp] "x").2.2 preEvalHyp (by simp) (by decide)⟩⟩

/-! ## Claim C10: hypothesis extraction in the creative generator

`CreativeGenerator._extract_hypotheses` (creative_generator.py 153-178).
The Python `str()`/`json.dumps` renderings below are structural
transliterations whose exact character output is cosmetic (no claim
inspects the rendered text, only how many strings are produced and in
which order). -/

mutual

/-- `json.dumps` over an embedded value (string escaping and float
formatting approximated). -/
def dumps : Json → String
  | Json.null => "null"
  | Json.bool b => if b then "true" else "false"
  | Json.num q => toString q
  | Json.str s => "\"" ++ s ++ "\""
  | Json.arr xs => "[" ++ dumpsList xs ++ "]"
  | Json.obj kvs => "\x7b" ++ dumpsKVs kvs ++ "\x7d"

/-- `json.dumps` over an array body. -/
def dumpsList : List Json → String
  | [] => ""
  | [x] => dumps x
  | x :: rest => dumps x ++ ", " ++ dumpsList rest

/-- `json.dumps` over an object body. -/
def dumpsKVs : List (String × Json) → String
  | [] => ""
  | [(k, v)] => "\"" ++ k ++ "\": " ++ dumps v
  | (k, v) :: rest => "\"" ++ k ++ "\": " ++ dumps v ++ ", " ++ dumpsKVs rest

end

/-- Python `str(x)` over an embedded value (container rendering
approximated by the JSON form). -/
def pyStr : Json → String
  | Json.str s => s
  | Json.null => "None"
  | Json.bool b => if b then "True" else "False"
  | Json.num q => toString q
  | j => dumps j

/-- Lines 163-172: the `or`-chain over `hypothesis`/`text`/`explanation`
(Python `or` skips falsy values) followed by `str(...)`; non-dict items
are rendered with `str` directly. -/
def itemToStr (item : Json) : String :=
  match item with
  | Json.obj _ =>
      let a := (item.get? "hypothesis").getD Json.null
      if a.truthy then pyStr a else
        let b := (item.get? "text").getD Json.null
        if b.truthy then pyStr b else
          let c := (item.get? "explanation").getD Json.null
          if c.truthy then pyStr c else dumps item
  | _ => pyStr item

/-- `CreativeGenerator._extract_hypotheses` (creative_generator.py
153-178).  A falsy input (including the empty dict) returns `[]`; a dict
with a `hypotheses` key iterates its value (a string iterates characters,
a dict iterates keys, a non-iterable raises `TypeError`); a dict with only
a `hypothesis` key yields that one string; any other dict — and any truthy
non-dict, which fails both `isinstance` guards — yields `[]`.  The result
is truncated to the first 5 entries. -/
def extractHypotheses (insights : Option Json) : Except String (List String) :=
  match insights with
  | none => .ok []
  | some ins =>
    if !ins.truthy then .ok []
    else match ins with
      | Json.obj kvs =>
        match Json.getKVs kvs "hypotheses" with
        | some (Json.arr items) => .ok ((items.map itemToStr).take 5)
        | some (Json.str s) => .ok ((s.data.map fun c => c.toString).take 5)
        | some (Json.obj kvs2) => .ok ((kvs2.map fun kv => kv.1).take 5)
        | some _ => .error "TypeError: object is not iterable"
        | none =>
          match Json.getKVs kvs "hypothesis" with
          | some v => .ok [pyStr v]
          | none => .ok []
      | _ => .ok []

/-- The input domain claim C10 enumerates: `None`, or a dict whose
`hypotheses` value — when present — is a list. -/
def c10Domain : Option Json → Bool
  | none => true
  | some (Json.obj kvs) =>
      match Json.getKVs kvs "hypotheses" with
      | some (Json.arr _) => true
      | some _ => false
      | none => true
  | some _ => false

/-- Claim C10: on its stated input domain the extraction never raises and
returns at most 5 strings; when the `hypotheses` list is longer, exactly
the first 5 converted entries, in order, are produced (these are what the
creative-generation context is built from). -/
theorem c10_extract :
    ∀ ins, c10Domain ins = true →
      ∃ l, extractHypotheses ins = .ok l ∧ l.length ≤ 5 ∧
        (∀ (kvs : List (String × Json)) (items : List Json),
          ins = some (Json.obj kvs) →
          Json.getKVs kvs "hypotheses" = some (Json.arr items) →
          l = (items.map itemToStr).take 5) := by
  intro ins hdom
  match ins with
  | none =>
    exact ⟨[], rfl, by simp, by intro kvs items h; cases h⟩
  | some (Json.null) => simp [c10Domain] at hdom
  | some (Json.bool b) => simp [c10Domain] at hdom
  | some (Json.num q) => simp [c10Domain] at hdom
  | some (Json.str s) => simp [c10Domain] at hdom
  | some (Json.arr xs) => simp [c10Domain] at hdom
  | some (Json.obj kvs) =>
    by_cases ht : (Json.obj kvs).truthy = true
    · cases hk : Json.getKVs kvs "hypotheses" with
      | some v =>
        cases v with
        | arr items =>
          refine ⟨(items.map itemToStr).take 5, ?_, List.length_take_le _ _, ?_⟩
          · simp [extractHypotheses, ht, hk]
          · intro kvs' items' heq hget
            cases heq
            rw [hk] at hget
            cases hget
            rfl
        | null => simp [c10Domain, hk] at hdom
        | bool b => simp [c10Domain, hk] at hdom
        | num q => simp [c10Domain, hk] at hdom
        | str s => simp [c10Domain, hk] at hdom
        | obj kvs2 => simp [c10Domain, hk] at hdom
      | none =>
        cases hk2 : Json.getKVs kvs "hypothesis" with
        | some v =>
          refine ⟨[pyStr v], ?_, by simp, ?_⟩
          · simp [extractHypotheses, ht, hk, hk2]
          · intro kvs' items' heq hget
            cases heq
            rw [hk] at hget
            cases hget
        | none =>
          refine ⟨[], ?_, by simp, ?_⟩
          · simp [extractHypotheses, ht, hk, hk2]
          · intro kvs' items' heq hget
            cases heq
            rw [hk] at hget
            cases hget
    · refine ⟨[], ?_, by simp, ?_⟩
      · simp only [extractHypotheses]
        rw [if_pos (by simpa using ht)]
      · intro kvs' items' heq hget
        cases heq
        have hnil : kvs = [] := by
          cases kvs with
          | nil => rfl
          | cons kv rest => simp [Json.truthy] at ht
        rw [hnil] at hget
        cases hget

/-- A 7-element hypotheses input for the C10 witness. -/
def c10Input : Json :=
  Json.obj [("hypotheses", Json.arr
    [Json.str "h1", Json.str "h2", Json.str "h3", Json.str "h4",
     Json.str "h5", Json.str "h6", Json.str "h7"])]

/-- Witness for `c10_extract` at a concrete 7-element input. -/
theorem c10_extract_witness :
    c10Domain (some c10Input) = true ∧
    (∃ l, extractHypotheses (some c10Input) = .ok l ∧ l.length ≤ 5 ∧
      (∀ (kvs : List (String × Json)) (items : List Json),
        some c10Input = some (Json.obj kvs) →
        Json.getKVs kvs "hypotheses" = some (Json.arr items) →
        l = (items.map itemToStr).take 5)) :=
  ⟨by decide, c10_extract (some c10Input) (by decide)⟩

/-! ## Pipeline controller (`AgenticWorkflow.run`, workflow.py 42-176)

The agent objects the orchestrator calls are externally backed (they wrap
the chat-completion capability; the data summarizer and report renderer
are out-of-scope per §1), so one run is fully determined by the outcome
of each call slot, given below as oracles.  `.error` models the Python
call raising; the orchestrator's own repair, gate, and reflection logic
is embedded from the source. -/

/-- A pipeline-step event, recorded when the corresponding agent call or
gate consultation is made. -/
inductive Event where
  | plan
  | data
  | hypothesize
  | eval
  | gate
  | creative
  | report
deriving DecidableEq

/-- The Run Result (§3): the four members `run` returns in every case. -/
structure RunStructure where
  insights : Json
  creatives : Json
  report : String
  plan : Json
deriving DecidableEq

/-- Oracle outcomes for the externally-backed calls of one run: the five
agent slots (evaluation and reflection slots receive the value the
orchestrator passes them) and the report renderer. -/
structure Oracles where
  planR : Except String Json
  dataR : Except String Json
  insightR : Except String Json
  evalR : Json → Except String Json
  insightR2 : Json → Except String Json
  evalR2 : Json → Except String Json
  creativeR : Json → Except String Json
  reportR : Json → Json → Json → Except String String

/-- `len(x)` as used by the orchestrator's logging probes: sized values
only, anything else raises `TypeError`. -/
def lenOk : Json → Except String ℕ
  | Json.arr xs => .ok xs.length
  | Json.str s => .ok s.length
  | Json.obj kvs => .ok kvs.length
  | _ => .error "TypeError: object has no len()"

/-- Lines 62-66: force the plan to be a dict with a `tasks` key. -/
def fixPlanShape (q : String) (p : Json) : Json :=
  match p with
  | Json.obj _ =>
      if p.hasKey "tasks" then p else p.set "tasks" (Json.arr [])
  | _ => Json.obj [("tasks", Json.arr []), ("query", Json.str q)]

/-- Lines 83-87: force the insights to be a dict with a `hypotheses`
key. -/
def fixInsightsShape (q : String) (ins : Json) : Json :=
  match ins with
  | Json.obj _ =>
      if ins.hasKey "hypotheses" then ins else ins.set "hypotheses" (Json.arr [])
  | _ => Json.obj [("hypotheses", Json.arr []), ("query", Json.str q)]

/-- Lines 219-223 (reflection variant, no `query` backfill). -/
def fixInsightsShape2 (ins : Json) : Json :=
  match ins with
  | Json.obj _ =>
      if ins.hasKey "hypotheses" then ins else ins.set "hypotheses" (Json.arr [])
  | _ => Json.obj [("hypotheses", Json.arr [])]

/-- Lines 100-107 (and 232-235): force the evaluation result to be a dict
with a `hypotheses` key, backfilling from the hypotheses that were fed to
the evaluator. -/
def fixValidatedShape (insHyps : Json) (v : Json) : Json :=
  match v with
  | Json.obj _ =>
      if v.hasKey "hypotheses" then v else v.set "hypotheses" insHyps
  | _ => Json.obj
      [("hypotheses", insHyps), ("overall_confidence", Json.num 0),
       ("validation_summary", Json.str "Validation failed")]

/-- Lines 108-114 (and 236-241): backfill a missing `overall_confidence`
with the member mean (or `0.0` for a falsy member collection); malformed
members make the summation raise. -/
def ensureOC (v : Json) : Except String Json :=
  if v.hasKey "overall_confidence" then .ok v
  else
    match v.get? "hypotheses" with
    | none => .error "KeyError: hypotheses"
    | some hv =>
      if hv.truthy then
        match hv with
        | Json.arr hyps => do
            let s ← sumConf hyps
            Except.ok (v.set "overall_confidence" (Json.num (s / (hyps.length : ℚ))))
        | _ => .error "TypeError: iteration over non-list"
      else .ok (v.set "overall_confidence" (Json.num 0))

/-- Lines 133-137: force the creatives to be a dict with a
`recommendations` key. -/
def fixCreativesShape (c : Json) : Json :=
  match c with
  | Json.obj _ =>
      if c.hasKey "recommendations" then c
      else c.set "recommendations" (Json.arr [])
  | _ => Json.obj [("recommendations", Json.arr [])]

/-- `AgenticWorkflow._reflection_loop` (workflow.py 200-248): regenerate
insights with the previous evaluation attached, re-evaluate, repair the
result; any raise inside the `try`, or a non-dict re-evaluation result,
returns the previous evaluation unchanged.  Also returns the stage events
the pass performed. -/
def reflectionLoop (O : Oracles) (prev : Json) : Json × List Event :=
  match O.insightR2 prev with
  | .error _ => (prev, [Event.hypothesize])
  | .ok r0 =>
    let refined := fixInsightsShape2 r0
    let rHyps := (refined.get? "hypotheses").getD Json.null
    match O.evalR2 rHyps with
    | .error _ => (prev, [Event.hypothesize, Event.eval])
    | .ok v0 =>
      match v0 with
      | Json.obj _ =>
        let v1 := if v0.hasKey "hypotheses" then v0 else v0.set "hypotheses" rHyps
        match ensureOC v1 with
        | .ok v2 => (v2, [Event.hypothesize, Event.eval])
        | .error _ => (prev, [Event.hypothesize, Event.eval])
      | _ => (prev, [Event.hypothesize, Event.eval])

/-- The body of `AgenticWorkflow.run`'s `try` block (workflow.py 57-159):
`.error` is an exception reaching the `except` at line 161.  The second
component is the trace of stage events performed. -/
def runBody (cfg : Config) (q : String) (O : Oracles) :
    Except String RunStructure × List Event :=
  match O.planR with
  | .error e => (.error e, [Event.plan])
  | .ok plan0 =>
    let plan := fixPlanShape q plan0
    match lenOk ((plan.get? "tasks").getD Json.null) with
    | .error e => (.error e, [Event.plan])
    | .ok _ =>
      match O.dataR with
      | .error e => (.error e, [Event.plan, Event.data])
      | .ok _ds =>
        match O.insightR with
        | .error e => (.error e, [Event.plan, Event.data, Event.hypothesize])
        | .ok ins0 =>
          let insights := fixInsightsShape q ins0
          match lenOk ((insights.get? "hypotheses").getD Json.null) with
          | .error e => (.error e, [Event.plan, Event.data, Event.hypothesize])
          | .ok _ =>
            let insHyps := (insights.get? "hypotheses").getD Json.null
            match O.evalR insHyps with
            | .error e =>
                (.error e,
                 [Event.plan, Event.data, Event.hypothesize, Event.eval])
            | .ok v0 =>
              let v1 := fixValidatedShape insHyps v0
              match ensureOC v1 with
              | .error e =>
                  (.error e,
                   [Event.plan, Event.data, Event.hypothesize, Event.eval])
              | .ok validated =>
                match lenOk ((validated.get? "hypotheses").getD Json.null) with
                | .error e =>
                    (.error e,
                     [Event.plan, Event.data, Event.hypothesize, Event.eval])
                | .ok _ =>
                  match needsReflection cfg validated with
                  | .error e =>
                      (.error e,
                       [Event.plan, Event.data, Event.hypothesize, Event.eval,
                        Event.gate])
                  | .ok needs =>
                    let vr :=
                      if needs then reflectionLoop O validated
                      else (validated, [])
                    let tr5 :=
                      [Event.plan, Event.data, Event.hypothesize, Event.eval,
                       Event.gate] ++ vr.2
                    match O.creativeR vr.1 with
                    | .error e => (.error e, tr5 ++ [Event.creative])
                    | .ok c0 =>
                      let creatives := fixCreativesShape c0
                      match lenOk
                          ((creatives.get? "recommendations").getD Json.null) with
                      | .error e => (.error e, tr5 ++ [Event.creative])
                      | .ok _ =>
                        match O.reportR vr.1 creatives plan with
                        | .error e =>
                            (.error e, tr5 ++ [Event.creative, Event.report])
                        | .ok rep =>
                            (.ok ⟨vr.1, creatives, rep, plan⟩,
                             tr5 ++ [Event.creative, Event.report])

/-- `AgenticWorkflow.run` (workflow.py 42-176): the `try` body, with the
`except` clause building the safe terminal result (lines 161-176). -/
def run (cfg : Config) (q : String) (O : Oracles) : RunStructure × List Event :=
  match runBody cfg q O with
  | (.ok r, tr) => (r, tr)
  | (.error e, tr) =>
      (⟨Json.obj
          [("hypotheses", Json.arr []),
           ("overall_confidence", Json.num 0),
           ("validation_summary", Json.str ("Analysis failed: " ++ e))],
        Json.obj [("recommendations", Json.arr [])],
        "Analysis failed: " ++ e,
        Json.obj [("tasks", Json.arr []), ("query", Json.str q)]⟩, tr)

/-! ## Shape-invariant lemmas for the orchestrator's repairs -/

theorem hasKey_set_self (kvs : List (String × Json)) (k : String) (v : Json) :
    (Json.obj (Json.setKVs kvs k v)).hasKey k = true := by
  simp [Json.hasKey, Json.get?, getKVs_set_self]

theorem hasKey_set_other (kvs : List (String × Json)) (k : String) (v : Json)
    (k' : String) (h : k ≠ k') :
    (Json.obj (Json.setKVs kvs k v)).hasKey k' = (Json.obj kvs).hasKey k' := by
  simp [Json.hasKey, Json.get?, getKVs_set_ne _ _ _ _ h]

theorem fixPlanShape_tasks (q : String) (p : Json) :
    (fixPlanShape q p).hasKey "tasks" = true := by
  cases p with
  | obj kvs =>
    simp only [fixPlanShape]
    split
    · assumption
    · exact hasKey_set_self kvs "tasks" (Json.arr [])
  | null => rfl
  | bool b => rfl
  | num n => rfl
  | str s => rfl
  | arr xs => rfl

theorem fixValidatedShape_isObj (ih v : Json) :
    (fixValidatedShape ih v).isObj = true := by
  cases v with
  | obj kvs =>
    simp only [fixValidatedShape]
    split
    · rfl
    · rfl
  | null => rfl
  | bool b => rfl
  | num n => rfl
  | str s => rfl
  | arr xs => rfl

theorem fixValidatedShape_hyps (ih v : Json) :
    (fixValidatedShape ih v).hasKey "hypotheses" = true := by
  cases v with
  | obj kvs =>
    simp only [fixValidatedShape]
    split
    · assumption
    · exact hasKey_set_self kvs "hypotheses" ih
  | null => rfl
  | bool b => rfl
  | num n => rfl
  | str s => rfl
  | arr xs => rfl

theorem fixCreativesShape_rec (c : Json) :
    (fixCreativesShape c).hasKey "recommendations" = true := by
  cases c with
  | obj kvs =>
    simp only [fixCreativesShape]
    split
    · assumption
    · exact hasKey_set_self kvs "recommendations" (Json.arr [])
  | null => rfl
  | bool b => rfl
  | num n => rfl
  | str s => rfl
  | arr xs => rfl

theorem ensureOC_keys (v v' : Json) (hobj : v.isObj = true)
    (h : ensureOC v = .ok v') :
    v'.hasKey "overall_confidence" = true ∧
    (v.hasKey "hypotheses" = true → v'.hasKey "hypotheses" = true) := by
  cases v with
  | obj kvs =>
    unfold ensureOC at h
    split at h
    · simp only [Except.ok.injEq] at h
      subst h
      exact ⟨by assumption, fun hh => hh⟩
    · rename_i hoc
      have keyship : ∀ (x : Json),
          ((Json.obj kvs).set "overall_confidence" x).hasKey
            "overall_confidence" = true ∧
          ((Json.obj kvs).hasKey "hypotheses" = true →
            ((Json.obj kvs).set "overall_confidence" x).hasKey "hypotheses" =
              true) := by
        intro x
        refine ⟨hasKey_set_self kvs _ x, fun hh => ?_⟩
        exact (hasKey_set_other kvs "overall_confidence" x "hypotheses"
          (by decide)).trans hh
      cases hg : (Json.obj kvs).get? "hypotheses" with
      | none => rw [hg] at h; exact Except.noConfusion h
      | some hv =>
        rw [hg] at h
        dsimp only at h
        by_cases htr : hv.truthy = true
        · rw [if_pos htr] at h
          cases hv with
          | arr hyps =>
            dsimp only at h
            cases hs : sumConf hyps with
            | error e => rw [hs] at h; simp [Except.bind, bind] at h
            | ok s =>
              rw [hs] at h
              simp only [Except.bind, bind, Except.ok.injEq] at h
              subst h
              exact keyship _
          | null => exact Except.noConfusion h
          | bool b => exact Except.noConfusion h
          | num n => exact Except.noConfusion h
          | str s => exact Except.noConfusion h
          | obj kvs2 => exact Except.noConfusion h
        · rw [if_neg htr] at h
          simp only [Except.ok.injEq] at h
          subst h
          exact keyship _
  | null => simp [Json.isObj] at hobj
  | bool b => simp [Json.isObj] at hobj
  | num n => simp [Json.isObj] at hobj
  | str s => simp [Json.isObj] at hobj
  | arr xs => simp [Json.isObj] at hobj

theorem reflectionLoop_keys (O : Oracles) (prev : Json)
    (h1 : prev.hasKey "hypotheses" = true)
    (h2 : prev.hasKey "overall_confidence" = true) :
    (reflectionLoop O prev).1.hasKey "hypotheses" = true ∧
    (reflectionLoop O prev).1.hasKey "overall_confidence" = true := by
  unfold reflectionLoop
  cases O.insightR2 prev with
  | error e => exact ⟨h1, h2⟩
  | ok r0 =>
    dsimp only
    cases O.evalR2 (((fixInsightsShape2 r0).get? "hypotheses").getD Json.null) with
    | error e => exact ⟨h1, h2⟩
    | ok v0 =>
      dsimp only
      cases v0 with
      | obj kvs0 =>
        dsimp only
        by_cases hv : (Json.obj kvs0).hasKey "hypotheses" = true
        · rw [if_pos hv]
          cases he : ensureOC (Json.obj kvs0) with
          | error e => exact ⟨h1, h2⟩
          | ok v2 =>
            have hk := ensureOC_keys (Json.obj kvs0) v2 rfl he
            exact ⟨hk.2 hv, hk.1⟩
        · rw [if_neg hv]
          have hobj : ((Json.obj kvs0).set "hypotheses"
              (((fixInsightsShape2 r0).get? "hypotheses").getD Json.null)).isObj =
              true := rfl
          have hh : ((Json.obj kvs0).set "hypotheses"
              (((fixInsightsShape2 r0).get? "hypotheses").getD Json.null)).hasKey
              "hypotheses" = true := hasKey_set_self _ _ _
          cases he : ensureOC ((Json.obj kvs0).set "hypotheses"
              (((fixInsightsShape2 r0).get? "hypotheses").getD Json.null)) with
          | error e => exact ⟨h1, h2⟩
          | ok v2 =>
            have hk := ensureOC_keys _ v2 hobj he
            exact ⟨hk.2 hh, hk.1⟩
      | null => exact ⟨h1, h2⟩
      | bool b => exact ⟨h1, h2⟩
      | num n => exact ⟨h1, h2⟩
      | str s => exact ⟨h1, h2⟩
      | arr xs => exact ⟨h1, h2⟩

theorem reflectionLoop_trace (O : Oracles) (prev : Json) :
    (reflectionLoop O prev).2 = [Event.hypothesize] ∨
    (reflectionLoop O prev).2 = [Event.hypothesize, Event.eval] := by
  unfold reflectionLoop
  cases O.insightR2 prev with
  | error e => exact Or.inl rfl
  | ok r0 =>
    dsimp only
    cases O.evalR2 (((fixInsightsShape2 r0).get? "hypotheses").getD Json.null) with
    | error e => exact Or.inr rfl
    | ok v0 =>
      dsimp only
      cases v0 with
      | obj kvs0 =>
        dsimp only
        split
        · cases ensureOC (Json.obj kvs0) with
          | error e => exact Or.inr rfl
          | ok v2 => exact Or.inr rfl
        · cases ensureOC ((Json.obj kvs0).set "hypotheses"
              (((fixInsightsShape2 r0).get? "hypotheses").getD Json.null)) with
          | error e => exact Or.inr rfl
          | ok v2 => exact Or.inr rfl
      | null => exact Or.inr rfl
      | bool b => exact Or.inr rfl
      | num n => exact Or.inr rfl
      | str s => exact Or.inr rfl
      | arr xs => exact Or.inr rfl

theorem runBody_spec (cfg : Config) (q : String) (O : Oracles)
    (res : Except String RunStructure) (tr : List Event)
    (h : runBody cfg q O = (res, tr)) :
    (tr.count Event.hypothesize ≤ 2 ∧ tr.count Event.eval ≤ 2 ∧
     tr.count Event.gate ≤ 1 ∧ tr.length ≤ 9) ∧
    (∀ r, res = .ok r →
      (r.plan.hasKey "tasks" = true ∧
       r.insights.hasKey "hypotheses" = true ∧
       r.insights.hasKey "overall_confidence" = true ∧
       r.creatives.hasKey "recommendations" = true) ∧
      tr.count Event.gate = 1) := by
  unfold runBody at h
  cases hp : O.planR with
  | error e =>
    rw [hp] at h; dsimp only at h; cases h
    exact ⟨by decide, fun r hr => Except.noConfusion hr⟩
  | ok plan0 =>
    rw [hp] at h; dsimp only at h
    cases hl1 : lenOk (((fixPlanShape q plan0).get? "tasks").getD Json.null) with
    | error e =>
      rw [hl1] at h; dsimp only at h; cases h
      exact ⟨by decide, fun r hr => Except.noConfusion hr⟩
    | ok n1 =>
      rw [hl1] at h; dsimp only at h
      cases hd : O.dataR with
      | error e =>
        rw [hd] at h; dsimp only at h; cases h
        exact ⟨by decide, fun r hr => Except.noConfusion hr⟩
      | ok ds =>
        rw [hd] at h; dsimp only at h
        cases hi : O.insightR with
        | error e =>
          rw [hi] at h; dsimp only at h; cases h
          exact ⟨by decide, fun r hr => Except.noConfusion hr⟩
        | ok ins0 =>
          rw [hi] at h; dsimp only at h
          cases hl2 : lenOk (((fixInsightsShape q ins0).get? "hypotheses").getD
              Json.null) with
          | error e =>
            rw [hl2] at h; dsimp only at h; cases h
            exact ⟨by decide, fun r hr => Except.noConfusion hr⟩
          | ok n2 =>
            rw [hl2] at h; dsimp only at h
            cases he : O.evalR (((fixInsightsShape q ins0).get? "hypotheses").getD
                Json.null) with
            | error e =>
              rw [he] at h; dsimp only at h; cases h
              exact ⟨by decide, fun r hr => Except.noConfusion hr⟩
            | ok v0 =>
              rw [he] at h; dsimp only at h
              cases hoc : ensureOC (fixValidatedShape
                  (((fixInsightsShape q ins0).get? "hypotheses").getD Json.null)
                  v0) with
              | error e =>
                rw [hoc] at h; dsimp only at h; cases h
                exact ⟨by decide, fun r hr => Except.noConfusion hr⟩
              | ok validated =>
                rw [hoc] at h; dsimp only at h
                have hvhyps : validated.hasKey "hypotheses" = true :=
                  (ensureOC_keys _ validated (fixValidatedShape_isObj _ _)
                    hoc).2 (fixValidatedShape_hyps _ _)
                have hvoc : validated.hasKey "overall_confidence" = true :=
                  (ensureOC_keys _ validated (fixValidatedShape_isObj _ _) hoc).1
                cases hl3 : lenOk ((validated.get? "hypotheses").getD Json.null) with
                | error e =>
                  rw [hl3] at h; dsimp only at h; cases h
                  exact ⟨by decide, fun r hr => Except.noConfusion hr⟩
                | ok n3 =>
                  rw [hl3] at h; dsimp only at h
                  cases hg : needsReflection cfg validated with
                  | error e =>
                    rw [hg] at h; dsimp only at h; cases h
                    exact ⟨by decide, fun r hr => Except.noConfusion hr⟩
                  | ok needs =>
                    rw [hg] at h; dsimp only at h
                    have hvr : ∀ vr : Json × List Event,
                        vr = (if needs then reflectionLoop O validated
                              else (validated, [])) →
                        (vr.1.hasKey "hypotheses" = true ∧
                         vr.1.hasKey "overall_confidence" = true) ∧
                        (vr.2 = [] ∨ vr.2 = [Event.hypothesize] ∨
                         vr.2 = [Event.hypothesize, Event.eval]) := by
                      intro vr hvreq
                      cases needs with
                      | true =>
                        rw [if_pos rfl] at hvreq
                        subst hvreq
                        refine ⟨reflectionLoop_keys O validated hvhyps hvoc, ?_⟩
                        rcases reflectionLoop_trace O validated with ht | ht
                        · exact Or.inr (Or.inl ht)
                        · exact Or.inr (Or.inr ht)
                      | false =>
                        rw [if_neg (by simp)] at hvreq
                        subst hvreq
                        exact ⟨⟨hvhyps, hvoc⟩, Or.inl rfl⟩
                    obtain ⟨⟨hk1, hk2⟩, htrc⟩ := hvr _ rfl
                    cases hc : O.creativeR (if needs then reflectionLoop O validated
                        else (validated, [])).1 with
                    | error e =>
                      rw [hc] at h; dsimp only at h; cases h
                      constructor
                      · rcases htrc with ht | ht | ht <;> rw [ht] <;> decide
                      · exact fun r hr => Except.noConfusion hr
                    | ok c0 =>
                      rw [hc] at h; dsimp only at h
                      cases hl4 : lenOk (((fixCreativesShape c0).get?
                          "recommendations").getD Json.null) with
                      | error e =>
                        rw [hl4] at h; dsimp only at h; cases h
                        constructor
                        · rcases htrc with ht | ht | ht <;> rw [ht] <;> decide
                        · exact fun r hr => Except.noConfusion hr
                      | ok n4 =>
                        rw [hl4] at h; dsimp only at h
                        cases hr : O.reportR (if needs then reflectionLoop O validated
                            else (validated, [])).1 (fixCreativesShape c0)
                            (fixPlanShape q plan0) with
                        | error e =>
                          rw [hr] at h; dsimp only at h; cases h
                          constructor
                          · rcases htrc with ht | ht | ht <;> rw [ht] <;> decide
                          · exact fun r hr => Except.noConfusion hr
                        | ok rep =>
                          rw [hr] at h; dsimp only at h; cases h
                          constructor
                          · rcases htrc with ht | ht | ht <;> rw [ht] <;> decide
                          · intro r hreq
                            cases hreq
                            refine ⟨⟨fixPlanShape_tasks q plan0, hk1, hk2,
                              fixCreativesShape_rec c0⟩, ?_⟩
                            rcases htrc with ht | ht | ht <;> rw [ht] <;> decide

/-! ## Claims C3 and C5: the run-level safety and bounded-retry
properties -/

/-- Claim C3: for every configuration, query and oracle outcome (including
any raising step), `run` produces a Run Result with all four members —
the plan always has `tasks`, the insights always have `hypotheses` and
`overall_confidence`, the creatives always have `recommendations` — and
whenever the `try` body degrades with an exception `e`, the result is
exactly the safe terminal structure: empty hypotheses, confidence `0`,
empty recommendations, and the explanatory failure string in place of the
report. -/
theorem c3_never_raises :
    ∀ (cfg : Config) (q : String) (O : Oracles),
      ((run cfg q O).1.plan.hasKey "tasks" = true ∧
       (run cfg q O).1.insights.hasKey "hypotheses" = true ∧
       (run cfg q O).1.insights.hasKey "overall_confidence" = true ∧
       (run cfg q O).1.creatives.hasKey "recommendations" = true) ∧
      (∀ e tr, runBody cfg q O = (.error e, tr) →
        run cfg q O =
          (⟨Json.obj
              [("hypotheses", Json.arr []),
               ("overall_confidence", Json.num 0),
               ("validation_summary", Json.str ("Analysis failed: " ++ e))],
            Json.obj [("recommendations", Json.arr [])],
            "Analysis failed: " ++ e,
            Json.obj [("tasks", Json.arr []), ("query", Json.str q)]⟩, tr)) := by
  intro cfg q O
  cases hb : runBody cfg q O with
  | mk res tr0 =>
    cases res with
    | ok r =>
      have hs := (runBody_spec cfg q O _ _ hb).2 r rfl
      have hrun : run cfg q O = (r, tr0) := by unfold run; rw [hb]
      constructor
      · rw [hrun]
        exact hs.1
      · intro e tr hcontra
        exact Except.noConfusion (congrArg Prod.fst hcontra)
    | error e0 =>
      have hrun : run cfg q O =
          (⟨Json.obj
              [("hypotheses", Json.arr []),
               ("overall_confidence", Json.num 0),
               ("validation_summary", Json.str ("Analysis failed: " ++ e0))],
            Json.obj [("recommendations", Json.arr [])],
            "Analysis failed: " ++ e0,
            Json.obj [("tasks", Json.arr []), ("query", Json.str q)]⟩, tr0) := by
        unfold run; rw [hb]
      constructor
      · rw [hrun]
        exact ⟨rfl, rfl, rfl, rfl⟩
      · intro e tr heq
        have he : e0 = e := by
          have := congrArg Prod.fst heq
          simpa using this
        have htr : tr0 = tr := by
          have := congrArg Prod.snd heq
          simpa using this
        subst he; subst htr
        exact hrun

/-- Oracles whose very first step (planning) raises. -/
def failingOracles : Oracles :=
  ⟨.error "boom", .error "unused", .error "unused", fun _ => .error "unused",
   fun _ => .error "unused", fun _ => .error "unused", fun _ => .error "unused",
   fun _ _ _ => .error "unused"⟩

/-- Witness for `c3_never_raises` at a concrete raising run. -/
theorem c3_witness :
    run defaultConfig "q1" failingOracles =
      (⟨Json.obj
          [("hypotheses", Json.arr []),
           ("overall_confidence", Json.num 0),
           ("validation_summary", Json.str ("Analysis failed: " ++ "boom"))],
        Json.obj [("recommendations", Json.arr [])],
        "Analysis failed: " ++ "boom",
        Json.obj [("tasks", Json.arr []), ("query", Json.str "q1")]⟩,
       [Event.plan]) :=
  (c3_never_raises defaultConfig "q1" failingOracles).2 "boom" [Event.plan] rfl

/-- Claim C5: for every run, the HYPOTHESIZE and EVALUATE slots each
execute at most twice, the Confidence Gate is consulted at most once —
exactly once on every run that completes without an exception — and the
whole run performs a bounded number of steps (at most 9 stage events). -/
theorem c5_bounded_retry :
    ∀ (cfg : Config) (q : String) (O : Oracles),
      ((run cfg q O).2.count Event.hypothesize ≤ 2 ∧
       (run cfg q O).2.count Event.eval ≤ 2 ∧
       (run cfg q O).2.count Event.gate ≤ 1 ∧
       (run cfg q O).2.length ≤ 9) ∧
      (∀ r tr, runBody cfg q O = (.ok r, tr) → tr.count Event.gate = 1) := by
  intro cfg q O
  cases hb : runBody cfg q O with
  | mk res tr0 =>
    have hs := runBody_spec cfg q O res tr0 hb
    have hrun2 : (run cfg q O).2 = tr0 := by
      unfold run; rw [hb]; cases res <;> rfl
    constructor
    · rw [hrun2]; exact hs.1
    · intro r tr heq
      have hres : res = .ok r := by
        have := congrArg Prod.fst heq
        simpa using this
      have htr : tr0 = tr := by
        have := congrArg Prod.snd heq
        simpa using this
      rw [← htr]
      exact (hs.2 r hres).2

/-- A high-confidence evaluation result for the C5 witness. -/
def successEval : Json :=
  Json.obj
    [("hypotheses", Json.arr [mkHyp 0.9]),
     ("overall_confidence", Json.num 0.9),
     ("validation_summary", Json.str "Strong evidence")]

/-- Oracles for a fully successful run without reflection. -/
def successOracles : Oracles :=
  ⟨.ok (Json.obj [("tasks", Json.arr [])]),
   .ok (Json.obj []),
   .ok (Json.obj [("hypotheses", Json.arr [mkHyp 0.9])]),
   fun _ => .ok successEval,
   fun _ => .error "unused",
   fun _ => .error "unused",
   fun _ => .ok (Json.obj [("recommendations", Json.arr [])]),
   fun _ _ _ => .ok "report"⟩

/-- Witness for `c5_bounded_retry` at a concrete completed run: the gate
fires exactly once. -/
theorem c5_witness :
    runBody defaultConfig "qx" successOracles =
      (.ok ⟨successEval, Json.obj [("recommendations", Json.arr [])], "report",
          Json.obj [("tasks", Json.arr [])]⟩,
       [Event.plan, Event.data, Event.hypothesize, Event.eval, Event.gate,
        Event.creative, Event.report]) ∧
    ([Event.plan, Event.data, Event.hypothesize, Event.eval, Event.gate,
      Event.creative, Event.report] : List Event).count Event.gate = 1 :=
  ⟨by with_unfolding_all decide,
   (c5_bounded_retry defaultConfig "qx" successOracles).2
     ⟨successEval, Json.obj [("recommendations", Json.arr [])], "report",
       Json.obj [("tasks", Json.arr [])]⟩
     [Event.plan, Event.data, Event.hypothesize, Event.eval, Event.gate,
      Event.creative, Event.report]
     (by with_unfolding_all decide)⟩

/-! ## Claim C6: what the reflection pass keeps and what it replaces -/

/-- The structural-failure condition of the reflection pass, read off the
source: the regenerate call raises, the re-evaluate call raises, the
re-evaluation yields a non-dict, or the confidence repair of the
re-evaluation raises. -/
def reflStructuralFailure (O : Oracles) (prev : Json) : Bool :=
  match O.insightR2 prev with
  | .error _ => true
  | .ok r0 =>
    let rHyps := ((fixInsightsShape2 r0).get? "hypotheses").getD Json.null
    match O.evalR2 rHyps with
    | .error _ => true
    | .ok v0 =>
      match v0 with
      | Json.obj _ =>
        let v1 := if v0.hasKey "hypotheses" then v0 else v0.set "hypotheses" rHyps
        match ensureOC v1 with
        | .ok _ => false
        | .error _ => true
      | _ => true

/-- The pre-reflection Evaluation used in the C6 instances. -/
def c6Prev : Json :=
  Json.obj
    [("hypotheses", Json.arr [mkHyp 0.2]),
     ("overall_confidence", Json.num 0.2),
     ("validation_summary", Json.str "previous low confidence")]

/-- Reflection oracles whose re-evaluation returns the empty dict. -/
def c6ReplaceO : Oracles :=
  ⟨.error "unused", .error "unused", .error "unused", fun _ => .error "unused",
   fun _ => .ok (Json.obj [("hypotheses", Json.arr [mkHyp 0.9])]),
   fun _ => .ok (Json.obj []),
   fun _ => .error "unused",
   fun _ _ _ => .error "unused"⟩

/-- Reflection oracles whose re-evaluation raises. -/
def c6FailO : Oracles :=
  ⟨.error "unused", .error "unused", .error "unused", fun _ => .error "unused",
   fun _ => .ok (Json.obj [("hypotheses", Json.arr [mkHyp 0.9])]),
   fun _ => .error "re-evaluation raised",
   fun _ => .error "unused",
   fun _ _ _ => .error "unused"⟩

/-- Claim C6 as stated is false: a re-evaluation result that is a dict but
NOT a well-formed Evaluation object (here the empty dict, which lacks
`hypotheses`, `overall_confidence` and `validation_summary`) is not
discarded in favour of the pre-reflection Evaluation; it is repaired
(hypotheses backfilled from the refined hypothesis set, confidence
recomputed) and replaces the previous Evaluation. -/
theorem c6_counterexample :
    specEvaluationContract (Json.obj []) = false ∧
    (reflectionLoop c6ReplaceO c6Prev).1 ≠ c6Prev ∧
    (reflectionLoop c6ReplaceO c6Prev).1.get? "hypotheses" =
      some (Json.arr [mkHyp 0.9]) := by
  refine ⟨rfl, ?_, ?_⟩ <;> with_unfolding_all decide

/-- Claim C6 as amended: the pre-reflection Evaluation is returned
unchanged exactly when the reflection pass fails structurally — the
regenerate or re-evaluate call raises, the re-evaluation returns a
non-dict, or its confidence repair raises; otherwise the re-evaluation's
dict, repaired (hypotheses backfilled from the refined set,
`overall_confidence` recomputed when missing), replaces it. -/
theorem c6_amended :
    ∀ (O : Oracles) (prev : Json),
      (reflStructuralFailure O prev = true → (reflectionLoop O prev).1 = prev) ∧
      (reflStructuralFailure O prev = false →
        ∃ r0 kvs0 v2,
          O.insightR2 prev = .ok r0 ∧
          O.evalR2 (((fixInsightsShape2 r0).get? "hypotheses").getD Json.null) =
            .ok (Json.obj kvs0) ∧
          ensureOC
            (if (Json.obj kvs0).hasKey "hypotheses" then Json.obj kvs0
             else (Json.obj kvs0).set "hypotheses"
               (((fixInsightsShape2 r0).get? "hypotheses").getD Json.null)) =
            .ok v2 ∧
          (reflectionLoop O prev).1 = v2) := by
  intro O prev
  unfold reflectionLoop reflStructuralFailure
  cases hi : O.insightR2 prev with
  | error e => exact ⟨fun _ => rfl, fun hcontra => by simp at hcontra⟩
  | ok r0 =>
    dsimp only
    cases he : O.evalR2 (((fixInsightsShape2 r0).get? "hypotheses").getD
        Json.null) with
    | error e => exact ⟨fun _ => rfl, fun hcontra => by simp at hcontra⟩
    | ok v0 =>
      dsimp only
      cases v0 with
      | obj kvs0 =>
        dsimp only
        cases hoc : ensureOC (if (Json.obj kvs0).hasKey "hypotheses" then
            Json.obj kvs0
          else (Json.obj kvs0).set "hypotheses"
            (((fixInsightsShape2 r0).get? "hypotheses").getD Json.null)) with
        | ok v2 =>
          refine ⟨fun hcontra => by simp at hcontra, fun _ => ?_⟩
          exact ⟨r0, kvs0, v2, rfl, he, hoc, rfl⟩
        | error e => exact ⟨fun _ => rfl, fun hcontra => by simp at hcontra⟩
      | null => exact ⟨fun _ => rfl, fun hcontra => by simp at hcontra⟩
      | bool b => exact ⟨fun _ => rfl, fun hcontra => by simp at hcontra⟩
      | num n => exact ⟨fun _ => rfl, fun hcontra => by simp at hcontra⟩
      | str s => exact ⟨fun _ => rfl, fun hcontra => by simp at hcontra⟩
      | arr xs => exact ⟨fun _ => rfl, fun hcontra => by simp at hcontra⟩

/-- Witness for `c6_amended`: a reflection pass whose re-evaluation
raises keeps the previous Evaluation. -/
theorem c6_amended_witness :
    reflStructuralFailure c6FailO c6Prev = true ∧
    (reflectionLoop c6FailO c6Prev).1 = c6Prev :=
  ⟨by decide, (c6_amended c6FailO c6Prev).1 (by decide)⟩

/-! ## Claim C8: missing critical dataset columns are fatal -/

/-- The critical-column list of `DataLoader._validate` (data_loader.py
line 61). -/
def criticalColumns : List String := ["spend", "revenue", "roas", "ctr"]

/-- `DataLoader._validate` (data_loader.py 51-68) over the dataset's
column names: missing non-critical columns only produce a warning, but a
missing critical column raises `ValueError` to the caller. -/
def validateData (cols : List String) : Except String (List String) :=
  let missing := criticalColumns.filter (fun c => !cols.contains c)
  if missing.isEmpty then .ok cols
  else .error "Critical columns missing"

/-- run.py lines 72-84: the loader's validation runs before the workflow;
a raise there propagates to the caller and the workflow never starts. -/
def pipelineMain (cols : List String) (cfg : Config) (q : String)
    (O : Oracles) : Except String (RunStructure × List Event) := do
  let _ ← validateData cols
  Except.ok (run cfg q O)

/-- Claim C8: a dataset missing any of the four critical columns makes
data loading fail with an error raised to the caller, and no (partial)
Run Result is produced. -/
theorem c8_missing_column :
    ∀ (cols : List String) (cfg : Config) (q : String) (O : Oracles)
      (c : String),
      c ∈ criticalColumns → c ∉ cols →
      validateData cols = .error "Critical columns missing" ∧
      ∀ res, pipelineMain cols cfg q O ≠ .ok res := by
  intro cols cfg q O c hc hnc
  have hval : validateData cols = .error "Critical columns missing" := by
    unfold validateData
    rw [if_neg ?hne]
    case hne =>
      intro hemp
      have hmem : c ∈ criticalColumns.filter (fun c => !cols.contains c) := by
        simp only [List.mem_filter, Bool.not_eq_true']
        exact ⟨hc, by simpa using hnc⟩
      rw [List.isEmpty_iff] at hemp
      rw [hemp] at hmem
      cases hmem
  refine ⟨hval, fun res hcontra => ?_⟩
  unfold pipelineMain at hcontra
  rw [hval] at hcontra
  simp [Except.bind, bind] at hcontra

/-- Witness for `c8_missing_column` at Scenario E: a dataset without the
`roas` column. -/
theorem c8_witness :
    "roas" ∈ criticalColumns ∧
    "roas" ∉ ["spend", "revenue", "ctr", "date"] ∧
    (validateData ["spend", "revenue", "ctr", "date"] =
        .error "Critical columns missing" ∧
      ∀ res, pipelineMain ["spend", "revenue", "ctr", "date"] defaultConfig
        "q" failingOracles ≠ .ok res) :=
  ⟨by decide, by decide,
   c8_missing_column ["spend", "revenue", "ctr", "date"] defaultConfig "q"
     failingOracles "roas" (by decide) (by decide)⟩

end FBAnalyst
